import Mathlib

/-!
# McpCar: tool-dispatch bridge over a shared UART

Shallow embedding of `main/boards/bread-compact-wifi/McpCar.cc`.

* Bytes (`uint8_t`, `char`) are natural numbers; a C string is the list of its bytes
  without the terminating NUL.
* `int` values are `Int`.
* The UART transmit side is the list of bytes handed to `uart_write_bytes`, oldest first.
* The receive task is modelled by its loop body, run once per outcome of `uart_read_bytes`.
-/

/-! ## C library and driver primitives -/

/-- Bytes of an ASCII string literal of the source. -/
def cstr (s : String) : List Nat := s.toList.map Char.toNat

/-- Conversion `%s` of printf: the bytes of the argument up to its first NUL. -/
def fmt_s (s : List Nat) : List Nat := s.takeWhile (fun b => b != 0)

/-- Conversion `%d` of printf on an `int`: base 10, no padding, `-` (byte 45) when negative. -/
def fmt_d (n : Int) : List Nat :=
  match n with
  | Int.ofNat m => (Nat.toDigits 10 m).map Char.toNat
  | Int.negSucc m => 45 :: (Nat.toDigits 10 (m + 1)).map Char.toNat

/-- Effect of `sprintf(cmd, ...)` on `char cmd[size]`: the formatted bytes followed by NUL.
The result is `none` when they do not fit the buffer (the write would run past its end). -/
def sprintf (size : Nat) (out : List Nat) : Option (List Nat) :=
  if out.length + 1 ≤ size then some (out ++ [0]) else none

/-- Length of a buffer up to its first NUL, as `strlen` computes it. -/
def strlen (buf : List Nat) : Nat := (buf.takeWhile (fun b => b != 0)).length

/-- Call `uart_write_bytes(UART_NUM, src, size)`: queues the first `size` bytes of `src`. -/
def uart_write_bytes (tx : List Nat) (src : List Nat) (size : Nat) : List Nat :=
  tx ++ src.take size

/-- Outcome of one `uart_read_bytes(UART_NUM, data, sizeof(data), timeout)` call as the driver
reports it: the error return `-1`, or the bytes it copied to the front of the buffer (it
returns their number, at most the 4 requested). -/
inductive ReadResult where
  | error
  | bytes (bs : List Nat)
deriving DecidableEq, Repr

/-- Return value and buffer contents after a `uart_read_bytes` call with outcome `rx`. -/
def uart_read_bytes (rx : ReadResult) (buf : List Nat) : Int × List Nat :=
  match rx with
  | ReadResult.error => (-1, buf)
  | ReadResult.bytes bs => (Int.ofNat bs.length, bs ++ buf.drop bs.length)

/-- The function `std::clamp(v, lo, hi)`. -/
def clamp (v lo hi : Int) : Int := if v < lo then lo else if hi < v then hi else v

/-! ## State of the bridge -/

/-- Mutable state touched by `McpCar.cc`: the UART transmit stream, the file-scope
`g_battery_level`, and the receive task's `uint8_t data[4]`. -/
structure Bridge where
  uart_tx : List Nat
  g_battery_level : Int
  data : List Nat
deriving DecidableEq, Repr

/-- State at start-up: nothing transmitted, `g_battery_level = 100`, and `data` holding
whatever the stack held (`d`). -/
def Bridge.init (d : List Nat) : Bridge :=
  { uart_tx := [], g_battery_level := 100, data := d }

/-! ## Appliance encoders -/

/-- Source function `air_send_cmd(state, temp)`. -/
def air_send_cmd (state : List Nat) (temp : Int) (s : Bridge) : Option Bridge :=
  let clamped_temp : Int := if temp < 16 then 16 else if temp > 32 then 32 else temp
  match sprintf 32 (cstr "BT,Air," ++ fmt_s state ++ cstr "," ++ fmt_d clamped_temp ++ cstr "\r\n") with
  | none => none
  | some cmd => some { s with uart_tx := uart_write_bytes s.uart_tx cmd (strlen cmd) }

/-- Source function `fan_send_cmd(state, gear)`. -/
def fan_send_cmd (state : List Nat) (gear : Int) (s : Bridge) : Option Bridge :=
  match sprintf 32 (cstr "BT,Fan," ++ fmt_s state ++ cstr "," ++ fmt_d gear ++ cstr "\r\n") with
  | none => none
  | some cmd => some { s with uart_tx := uart_write_bytes s.uart_tx cmd (strlen cmd) }

/-- Source function `light_send_cmd(state, gear)`. -/
def light_send_cmd (state : List Nat) (gear : Int) (s : Bridge) : Option Bridge :=
  let clamped_gear : Int := if gear < 1 then 1 else if gear > 5 then 5 else gear
  match sprintf 32 (cstr "BT,Light," ++ fmt_s state ++ cstr "," ++ fmt_d clamped_gear ++ cstr "\r\n") with
  | none => none
  | some cmd => some { s with uart_tx := uart_write_bytes s.uart_tx cmd (strlen cmd) }

/-- Source function `lock_send_cmd(state, gear)`. -/
def lock_send_cmd (state : List Nat) (gear : Int) (s : Bridge) : Option Bridge :=
  match sprintf 32 (cstr "BT,Lock," ++ fmt_s state ++ cstr "," ++ fmt_d gear ++ cstr "\r\n") with
  | none => none
  | some cmd => some { s with uart_tx := uart_write_bytes s.uart_tx cmd (strlen cmd) }

/-! ## Telemetry reader and cache -/

/-- Source method `McpCar::send_uart_command(command)`: one byte to the UART; the argument
is converted to `uint8_t`. -/
def send_uart_command (command : Nat) (s : Bridge) : Bridge :=
  { s with uart_tx := uart_write_bytes s.uart_tx [command % 256] 1 }

/-- One pass through the body of the `while (true)` loop of `McpCar::uart1_receive_task`,
where `rx` is the outcome of its `uart_read_bytes` call. -/
def uart1_receive_iteration (rx : ReadResult) (s : Bridge) : Bridge :=
  let r := uart_read_bytes rx s.data
  let len := r.1
  let data := r.2
  if len = 4 ∧ data.getD 0 0 = 0xAA ∧ data.getD 1 0 = 0xBB ∧ data.getD 3 0 = 0xCC then
    { s with data := data, g_battery_level := clamp (Int.ofNat (data.getD 2 0)) 0 100 }
  else
    { s with data := data }

/-- Source method `McpCar::uart1_receive_task`, run over the successive outcomes `rxs` of its
reads (the loop itself never ends). -/
def uart1_receive_task (rxs : List ReadResult) (s : Bridge) : Bridge :=
  rxs.foldl (fun acc rx => uart1_receive_iteration rx acc) s

/-- Source method `McpCar::GetBatteryLevel`. -/
def GetBatteryLevel (s : Bridge) : Int := s.g_battery_level

/-- Call `vTaskDelay(...)` in a tool handler: while the handler is suspended the receive
task performs the reads `during`. -/
def vTaskDelay (during : List ReadResult) (s : Bridge) : Bridge :=
  uart1_receive_task during s

/-! ## Tool registry -/

/-- Modelled from the spec: the handler result type `ReturnValue` of `mcp_server.h`, "a
boolean success or an integer value". -/
inductive ReturnValue where
  | bool (b : Bool)
  | int (i : Int)
deriving DecidableEq, Repr

/-- Modelled from the spec: the property kinds of `mcp_server.h`; the bridge only uses
`kPropertyTypeInteger`. -/
inductive PropertyType where
  | kPropertyTypeBoolean
  | kPropertyTypeInteger
  | kPropertyTypeString
deriving DecidableEq, Repr

/-- Modelled from the spec: a `Property` of `mcp_server.h`, an integer field with inclusive
`[min,max]` bounds, holding a value once the registry has bound the call arguments. -/
structure Property where
  name : String
  type : PropertyType
  min_value : Int
  max_value : Int
  value : Option Int
deriving DecidableEq, Repr

/-- Constructor `Property(name, type, min, max)`: a schema entry, no value yet. -/
def Property.mk4 (name : String) (type : PropertyType) (min_value max_value : Int) : Property :=
  { name := name, type := type, min_value := min_value, max_value := max_value, value := none }

/-- Modelled from the spec: `PropertyList` of `mcp_server.h`, "zero-or-one integer field". -/
abbrev PropertyList := List Property

/-- Expression `props[name].value<int>()`; `none` stands for the exception thrown when the
property or its value is absent. -/
def PropertyList.value_int (props : PropertyList) (name : String) : Option Int :=
  match props.find? (fun p => p.name == name) with
  | some p => p.value
  | none => none

/-- Modelled from the spec: the argument list the registry passes to a handler, the tool's
schema with the call's integer argument stored in it. -/
def PropertyList.bind_value (schema : PropertyList) (v : Int) : PropertyList :=
  schema.map (fun p => { p with value := some v })

/-- Modelled from the spec: a tool entry {name; description; parameter schema; handler}.
The handler receives the bound arguments, the reads the receive task performs while the
handler is suspended, and the bridge state; `none` stands for a handler that faults. -/
structure McpTool where
  name : String
  description : String
  properties : PropertyList
  callback : PropertyList → List ReadResult → Bridge → Option (Bridge × ReturnValue)

/-- Modelled from the spec: the external registry, as the list of submitted entries. -/
abbrev McpServer := List McpTool

/-- Modelled from the spec: `AddTool(name, description, schema, handler)` submits an entry. -/
def McpServer.AddTool (server : McpServer) (name description : String) (properties : PropertyList)
    (callback : PropertyList → List ReadResult → Bridge → Option (Bridge × ReturnValue)) :
    McpServer :=
  server ++ [{ name := name, description := description, properties := properties,
               callback := callback }]

/-- Modelled from the spec: look a submitted tool up by its name. -/
def McpServer.find_tool (server : McpServer) (name : String) : Option McpTool :=
  server.find? (fun t => t.name == name)

/-- Modelled from the spec: dispatch of a call to the handler registered under `name`. -/
def McpServer.call (server : McpServer) (name : String) (args : PropertyList)
    (during : List ReadResult) (s : Bridge) : Option (Bridge × ReturnValue) :=
  match server.find_tool name with
  | some t => t.callback args during s
  | none => none

/-- The `return true;` tail shared by the handlers: the state reached and result `true`. -/
def return_true (r : Option Bridge) : Option (Bridge × ReturnValue) :=
  r.map (fun s => (s, ReturnValue.bool true))

/-- Source function `register_device_tools()`. -/
def register_device_tools (server : McpServer) : McpServer :=
  let server := server.AddTool "air.off" "空调关闭" []
    (fun _ _ s => return_true (air_send_cmd (cstr "OFF") 0 s))
  let server := server.AddTool "air.set_temp" "设置空调温度（16-32度）"
    [Property.mk4 "temperature" PropertyType.kPropertyTypeInteger 16 32]
    (fun props _ s =>
      match props.value_int "temperature" with
      | some v => return_true (air_send_cmd (cstr "ON") v s)
      | none => none)
  let server := server.AddTool "fan.off" "风扇关闭" []
    (fun _ _ s => return_true (fan_send_cmd (cstr "OFF") 0 s))
  let server := server.AddTool "fan.set_gear" "设置风扇档位（1-3档）"
    [Property.mk4 "gear" PropertyType.kPropertyTypeInteger 1 3]
    (fun props _ s =>
      match props.value_int "gear" with
      | some v => return_true (fan_send_cmd (cstr "ON") v s)
      | none => none)
  let server := server.AddTool "light.off" "灯光关闭" []
    (fun _ _ s => return_true (light_send_cmd (cstr "OFF") 0 s))
  let server := server.AddTool "light.set_gear" "设置灯光档位（1-5档，对应20%-99%亮度）"
    [Property.mk4 "gear" PropertyType.kPropertyTypeInteger 1 5]
    (fun props _ s =>
      match props.value_int "gear" with
      | some v => return_true (light_send_cmd (cstr "ON") v s)
      | none => none)
  let server := server.AddTool "lock.unlock" "锁具解锁" []
    (fun _ _ s => return_true (lock_send_cmd (cstr "ON") 1 s))
  let server := server.AddTool "lock.lock" "锁具锁定" []
    (fun _ _ s => return_true (lock_send_cmd (cstr "OFF") 0 s))
  server

/-- Handler shared in shape by the action tools of the constructor: log, then
`send_uart_command(op); return true;`. -/
def action_handler (op : Nat) :
    PropertyList → List ReadResult → Bridge → Option (Bridge × ReturnValue) :=
  fun _ _ s => some (send_uart_command op s, ReturnValue.bool true)

/-- Constructor `McpCar::McpCar()`: the tools it submits, in order. (`uart1_init` configures
the driver and the receive task is started last; neither changes the modelled state.) -/
def McpCar (server : McpServer) : McpServer :=
  let server := register_device_tools server
  let server := server.AddTool "self.mcpcar.relax" "放松趴下" [] (action_handler 0x29)
  let server := server.AddTool "self.mcpcar.squat" "蹲下" [] (action_handler 0x30)
  let server := server.AddTool "self.mcpcar.stand" "直立" [] (action_handler 0x31)
  let server := server.AddTool "self.mcpcar.lie_down" "趴下" [] (action_handler 0x32)
  let server := server.AddTool "self.mcpcar.forward" "前进" [] (action_handler 0x33)
  let server := server.AddTool "self.mcpcar.backward" "后退" [] (action_handler 0x34)
  let server := server.AddTool "self.mcpcar.turn_left" "左转" [] (action_handler 0x35)
  let server := server.AddTool "self.mcpcar.turn_right" "右转" [] (action_handler 0x36)
  let server := server.AddTool "self.mcpcar.swing" "摇摆" [] (action_handler 0x37)
  let server := server.AddTool "self.mcpcar.speed_up" "增加移动速度" [] (action_handler 0x38)
  let server := server.AddTool "self.mcpcar.swing_speed_up" "增加摇摆速度" []
    (action_handler 0x39)
  let server := server.AddTool "self.mcpcar.wag_tail" "摇尾巴" [] (action_handler 0x40)
  let server := server.AddTool "self.mcpcar.jump_forward" "向前跳" [] (action_handler 0x41)
  let server := server.AddTool "self.mcpcar.jump_backward" "向后跳" [] (action_handler 0x42)
  let server := server.AddTool "self.mcpcar.greet" "打招呼" [] (action_handler 0x43)
  let server := server.AddTool "self.mcpcar.Identify who I am" "识别我是谁" []
    (action_handler 0x44)
  let server := server.AddTool "self.mcpcar.Enter the master's command" "录入主人的指令" []
    (action_handler 0x45)
  let server := server.AddTool "self.mcpcar.Enter a command" "录入一个指令" []
    (action_handler 0x46)
  let server := server.AddTool "self.mcpcar.get_battery_level" "获取电量百分比" []
    (fun _ during s =>
      let s := send_uart_command 0x47 s
      let s := vTaskDelay during s
      some (s, ReturnValue.int (GetBatteryLevel s)))
  server

/-- The registry after start-up: the global `McpCar carInstance` constructed once. -/
def carInstance : McpServer := McpCar []

/-! ## Observations used in the statements -/

/-- State `s` after the bytes `frame` were written to the UART and nothing else changed. -/
def Bridge.sent (s : Bridge) (frame : List Nat) : Bridge :=
  { s with uart_tx := s.uart_tx ++ frame }

/-- Bytes a call of the tool `name` appends to the transmit stream. -/
def McpServer.emitted (server : McpServer) (name : String) (args : PropertyList)
    (during : List ReadResult) (s : Bridge) : Option (List Nat) :=
  (server.call name args during s).map (fun r => r.1.uart_tx.drop s.uart_tx.length)

/-- Names of the tools the constructor submits itself, after `register_device_tools`. -/
def single_byte_tool_names : List String :=
  ((McpCar []).drop (register_device_tools []).length).map (fun t => t.name)

/-- The opcode table of §4.2 of the specification: tool name and opcode, row by row. -/
def spec_opcode_table : List (String × Nat) :=
  [("relax", 0x29), ("squat", 0x30), ("stand", 0x31), ("lie_down", 0x32), ("forward", 0x33),
   ("backward", 0x34), ("turn_left", 0x35), ("turn_right", 0x36), ("swing", 0x37),
   ("speed_up", 0x38), ("swing_speed_up", 0x39), ("wag_tail", 0x40), ("jump_forward", 0x41),
   ("jump_backward", 0x42), ("greet", 0x43), ("identify", 0x44),
   ("enroll_master_command", 0x45), ("enroll_command", 0x46), ("query_battery", 0x47)]

/-- Name and opcode of each single-byte tool as the constructor registers it; that the
registry agrees with this list is `emitted_registered_opcode` and
`single_byte_tool_names_eq`. -/
def registered_opcodes : List (String × Nat) :=
  [("self.mcpcar.relax", 0x29), ("self.mcpcar.squat", 0x30), ("self.mcpcar.stand", 0x31),
   ("self.mcpcar.lie_down", 0x32), ("self.mcpcar.forward", 0x33),
   ("self.mcpcar.backward", 0x34), ("self.mcpcar.turn_left", 0x35),
   ("self.mcpcar.turn_right", 0x36), ("self.mcpcar.swing", 0x37),
   ("self.mcpcar.speed_up", 0x38), ("self.mcpcar.swing_speed_up", 0x39),
   ("self.mcpcar.wag_tail", 0x40), ("self.mcpcar.jump_forward", 0x41),
   ("self.mcpcar.jump_backward", 0x42), ("self.mcpcar.greet", 0x43),
   ("self.mcpcar.Identify who I am", 0x44), ("self.mcpcar.Enter the master's command", 0x45),
   ("self.mcpcar.Enter a command", 0x46), ("self.mcpcar.get_battery_level", 0x47)]

/-- The telemetry decoder in the words of §4.2 of the specification: a 4-byte input is
accepted iff `b[0] = 0xAA`, `b[1] = 0xBB` and `b[3] = 0xCC`, and yields `clamp(b[2], 0, 100)`;
anything else yields nothing. -/
def telemetry_decode (rx : ReadResult) : Option Int :=
  match rx with
  | ReadResult.bytes [b0, b1, b2, b3] =>
    if b0 = 0xAA ∧ b1 = 0xBB ∧ b3 = 0xCC then some (clamp (Int.ofNat b2) 0 100) else none
  | _ => none

/-- Last-known value after the reads `rxs`: what the decoder yields for the last read it
accepts, and the initial 100 when it accepts none. -/
def last_known_value (rxs : List ReadResult) : Int :=
  ((rxs.filterMap telemetry_decode).getLast?).getD 100

/-- Bytes a call of the tool entry `t` appends to the transmit stream. -/
def McpTool.emitted (t : McpTool) (args : PropertyList) (during : List ReadResult)
    (s : Bridge) : Option (List Nat) :=
  (t.callback args during s).map (fun r => r.1.uart_tx.drop s.uart_tx.length)

/-- Values of a 32-bit signed `int`. -/
def is_int32 (n : Int) : Prop := -2147483648 ≤ n ∧ n ≤ 2147483647

/-- The number a run of ASCII decimal digits denotes, most significant digit first. -/
def decimal_value (bytes : List Nat) : Nat :=
  bytes.foldl (fun acc b => 10 * acc + (b - 48)) 0

/-- The integer a base-10 field denotes: an optional leading `-` (byte 45), then digits. -/
def read_d (bytes : List Nat) : Int :=
  if bytes.head? = some 45 then - Int.ofNat (decimal_value bytes.tail)
  else Int.ofNat (decimal_value bytes)

/-- The appliance line `BT,<Device>,<State>,<N>\r\n` of §3 of the specification. -/
def appliance_frame (device state : List Nat) (n : Int) : List Nat :=
  cstr "BT," ++ device ++ cstr "," ++ state ++ cstr "," ++ fmt_d n ++ cstr "\r\n"

/-- The four devices of the appliance frames. -/
def appliance_devices : List (List Nat) := [cstr "Air", cstr "Fan", cstr "Light", cstr "Lock"]

/-- The two states of the appliance frames. -/
def appliance_states : List (List Nat) := [cstr "ON", cstr "OFF"]

/-- Well-formed appliance frame: ASCII bytes only, starts with `BT,`, holds exactly three
commas (byte 44), ends with CR LF (13, 10) and has no CR or LF before that. -/
def frame_well_formed (f : List Nat) : Prop :=
  (∀ b ∈ f, b < 0x80) ∧ f.take 3 = cstr "BT," ∧ f.count 44 = 3 ∧
  ∃ body, f = body ++ [13, 10] ∧ ∀ b ∈ body, b ≠ 13 ∧ b ≠ 10

/-- The cache range of §3 of the specification: `battery_level ∈ [0,100]`. -/
def cache_in_range (s : Bridge) : Prop :=
  0 ≤ s.g_battery_level ∧ s.g_battery_level ≤ 100

/-- States the bridge can be in: the start-up state, and any state reached from a reachable
one by a pass of the receive loop or by a completed call of a registered tool. -/
inductive Reachable : Bridge → Prop where
  | init (d : List Nat) : Reachable (Bridge.init d)
  | read (rx : ReadResult) (s : Bridge) :
      Reachable s → Reachable (uart1_receive_iteration rx s)
  | call (t : McpTool) (args : PropertyList) (during : List ReadResult) (s s' : Bridge)
      (r : ReturnValue) :
      t ∈ carInstance → Reachable s → t.callback args during s = some (s', r) → Reachable s'

/-! ## Frames written by the appliance encoders -/

/-- With state `"ON"`, `air_send_cmd` writes its argument clamped to `[16,32]`. -/
theorem air_send_cmd_ON (t : Int) (s : Bridge) :
    air_send_cmd (cstr "ON") t s = some (s.sent
      (cstr "BT,Air,ON," ++ fmt_d (if t < 16 then 16 else if t > 32 then 32 else t)
        ++ cstr "\r\n")) := by
  by_cases h1 : t < 16
  · simp only [air_send_cmd, if_pos h1]; rfl
  · by_cases h2 : t > 32
    · simp only [air_send_cmd, if_neg h1, if_pos h2]; rfl
    · have h3 : 16 ≤ t := by omega
      have h4 : t ≤ 32 := by omega
      clear h1 h2
      interval_cases t <;> rfl

/-- With state `"ON"`, `light_send_cmd` writes its argument clamped to `[1,5]`. -/
theorem light_send_cmd_ON (g : Int) (s : Bridge) :
    light_send_cmd (cstr "ON") g s = some (s.sent
      (cstr "BT,Light,ON," ++ fmt_d (if g < 1 then 1 else if g > 5 then 5 else g)
        ++ cstr "\r\n")) := by
  by_cases h1 : g < 1
  · simp only [light_send_cmd, if_pos h1]; rfl
  · by_cases h2 : g > 5
    · simp only [light_send_cmd, if_neg h1, if_pos h2]; rfl
    · have h3 : 1 ≤ g := by omega
      have h4 : g ≤ 5 := by omega
      clear h1 h2
      interval_cases g <;> rfl

/-- With state `"ON"` and a gear in `[1,3]`, `fan_send_cmd` writes the gear as it is. -/
theorem fan_send_cmd_ON (g : Int) (s : Bridge) (h1 : 1 ≤ g) (h3 : g ≤ 3) :
    fan_send_cmd (cstr "ON") g s
      = some (s.sent (cstr "BT,Fan,ON," ++ fmt_d g ++ cstr "\r\n")) := by
  interval_cases g <;> rfl

/-- C1 (encoder range safety). For every integer `t`, the handler of `air.set_temp` called
with `t`, which is `air_send_cmd("ON", t)`, writes `BT,Air,ON,<c>\r\n` for a `c` in `[16,32]`
and returns `true`; for every integer `g`, the handler of `light.set_gear` called with `g`,
which is `light_send_cmd("ON", g)`, writes `BT,Light,ON,<c>\r\n` for a `c` in `[1,5]`. The
arguments are not assumed to satisfy the schema. -/
theorem encoder_range_safety (t g : Int) (during : List ReadResult) (s : Bridge) :
    (∃ c : Int, 16 ≤ c ∧ c ≤ 32 ∧
      air_send_cmd (cstr "ON") t s
        = some (s.sent (cstr "BT,Air,ON," ++ fmt_d c ++ cstr "\r\n")) ∧
      carInstance.call "air.set_temp"
        (PropertyList.bind_value
          [Property.mk4 "temperature" PropertyType.kPropertyTypeInteger 16 32] t) during s
        = some (s.sent (cstr "BT,Air,ON," ++ fmt_d c ++ cstr "\r\n"), ReturnValue.bool true)) ∧
    (∃ c : Int, 1 ≤ c ∧ c ≤ 5 ∧
      light_send_cmd (cstr "ON") g s
        = some (s.sent (cstr "BT,Light,ON," ++ fmt_d c ++ cstr "\r\n")) ∧
      carInstance.call "light.set_gear"
        (PropertyList.bind_value
          [Property.mk4 "gear" PropertyType.kPropertyTypeInteger 1 5] g) during s
        = some (s.sent (cstr "BT,Light,ON," ++ fmt_d c ++ cstr "\r\n"),
            ReturnValue.bool true)) := by
  constructor
  · refine ⟨if t < 16 then 16 else if t > 32 then 32 else t, ?_, ?_, air_send_cmd_ON t s, ?_⟩
    · split_ifs <;> omega
    · split_ifs <;> omega
    · show return_true (air_send_cmd (cstr "ON") t s) = _
      rw [air_send_cmd_ON]; rfl
  · refine ⟨if g < 1 then 1 else if g > 5 then 5 else g, ?_, ?_, light_send_cmd_ON g s, ?_⟩
    · split_ifs <;> omega
    · split_ifs <;> omega
    · show return_true (light_send_cmd (cstr "ON") g s) = _
      rw [light_send_cmd_ON]; rfl

/-- C2 (set-tools, schema-valid arguments). The schemas registered for `air.set_temp`,
`fan.set_gear` and `light.set_gear` are `temperature:[16,32]`, `gear:[1,3]` and `gear:[1,5]`;
called with an argument inside its schema, each handler writes exactly
`BT,Air,ON,<t>\r\n`, `BT,Fan,ON,<g>\r\n`, `BT,Light,ON,<g>\r\n` and returns `true`, where the
number is the argument itself in base 10 without padding: two digit bytes `48 + t / 10`,
`48 + t % 10` for a temperature, one digit byte `48 + g` for a gear (48 is ASCII `0`). -/
theorem set_tools_emit_argument (t gf gl : Int) (during : List ReadResult) (s : Bridge)
    (ht : 16 ≤ t ∧ t ≤ 32) (hf : 1 ≤ gf ∧ gf ≤ 3) (hl : 1 ≤ gl ∧ gl ≤ 5) :
    ((carInstance.find_tool "air.set_temp").map (fun tool => tool.properties)
        = some [Property.mk4 "temperature" PropertyType.kPropertyTypeInteger 16 32] ∧
      carInstance.call "air.set_temp"
        (PropertyList.bind_value
          [Property.mk4 "temperature" PropertyType.kPropertyTypeInteger 16 32] t) during s
        = some (s.sent (cstr "BT,Air,ON," ++ fmt_d t ++ cstr "\r\n"), ReturnValue.bool true) ∧
      fmt_d t = [48 + (t / 10).toNat, 48 + (t % 10).toNat]) ∧
    ((carInstance.find_tool "fan.set_gear").map (fun tool => tool.properties)
        = some [Property.mk4 "gear" PropertyType.kPropertyTypeInteger 1 3] ∧
      carInstance.call "fan.set_gear"
        (PropertyList.bind_value
          [Property.mk4 "gear" PropertyType.kPropertyTypeInteger 1 3] gf) during s
        = some (s.sent (cstr "BT,Fan,ON," ++ fmt_d gf ++ cstr "\r\n"), ReturnValue.bool true) ∧
      fmt_d gf = [48 + gf.toNat]) ∧
    ((carInstance.find_tool "light.set_gear").map (fun tool => tool.properties)
        = some [Property.mk4 "gear" PropertyType.kPropertyTypeInteger 1 5] ∧
      carInstance.call "light.set_gear"
        (PropertyList.bind_value
          [Property.mk4 "gear" PropertyType.kPropertyTypeInteger 1 5] gl) during s
        = some (s.sent (cstr "BT,Light,ON," ++ fmt_d gl ++ cstr "\r\n"),
            ReturnValue.bool true) ∧
      fmt_d gl = [48 + gl.toNat]) := by
  obtain ⟨ht1, ht2⟩ := ht
  obtain ⟨hf1, hf2⟩ := hf
  obtain ⟨hl1, hl2⟩ := hl
  refine ⟨⟨rfl, ?_, ?_⟩, ⟨rfl, ?_, ?_⟩, ⟨rfl, ?_, ?_⟩⟩
  · show return_true (air_send_cmd (cstr "ON") t s) = _
    rw [air_send_cmd_ON, if_neg (by omega), if_neg (by omega)]; rfl
  · interval_cases t <;> rfl
  · show return_true (fan_send_cmd (cstr "ON") gf s) = _
    rw [fan_send_cmd_ON gf s hf1 hf2]; rfl
  · interval_cases gf <;> rfl
  · show return_true (light_send_cmd (cstr "ON") gl s) = _
    rw [light_send_cmd_ON, if_neg (by omega), if_neg (by omega)]; rfl
  · interval_cases gl <;> rfl

/-- Scenarios S1 and S2 (first half) as instances of C2: from the start-up state
`air.set_temp` with 22 writes `BT,Air,ON,22\r\n`, `fan.set_gear` with 3 writes
`BT,Fan,ON,3\r\n`, and `light.set_gear` with 5 writes `BT,Light,ON,5\r\n`. -/
theorem set_tools_emit_argument_witness :
    carInstance.call "air.set_temp"
        (PropertyList.bind_value
          [Property.mk4 "temperature" PropertyType.kPropertyTypeInteger 16 32] 22) []
        (Bridge.init [])
      = some ((Bridge.init []).sent (cstr "BT,Air,ON,22\r\n"), ReturnValue.bool true) ∧
    carInstance.call "fan.set_gear"
        (PropertyList.bind_value [Property.mk4 "gear" PropertyType.kPropertyTypeInteger 1 3] 3)
        [] (Bridge.init [])
      = some ((Bridge.init []).sent (cstr "BT,Fan,ON,3\r\n"), ReturnValue.bool true) ∧
    carInstance.call "light.set_gear"
        (PropertyList.bind_value [Property.mk4 "gear" PropertyType.kPropertyTypeInteger 1 5] 5)
        [] (Bridge.init [])
      = some ((Bridge.init []).sent (cstr "BT,Light,ON,5\r\n"), ReturnValue.bool true) :=
  have h := set_tools_emit_argument 22 3 5 [] (Bridge.init [])
    ⟨by decide, by decide⟩ ⟨by decide, by decide⟩ ⟨by decide, by decide⟩
  ⟨h.1.2.1, h.2.1.2.1, h.2.2.2.1⟩

/-! ## Parameterless appliance tools -/

/-- C3 (`air.off`). The handler calls `air_send_cmd("OFF", 0)`, and `air_send_cmd` clamps
the number whatever the state: in every state the call writes `BT,Air,OFF,16\r\n`, which is
not the tabulated `BT,Air,OFF,0\r\n`, and returns `true`. -/
theorem air_off_writes_clamped_16 (args : PropertyList) (during : List ReadResult)
    (s : Bridge) :
    carInstance.call "air.off" args during s
      = some (s.sent (cstr "BT,Air,OFF,16\r\n"), ReturnValue.bool true) ∧
    carInstance.emitted "air.off" [] [] (Bridge.init []) ≠ some (cstr "BT,Air,OFF,0\r\n") :=
  ⟨rfl, by decide⟩

/-- C4 (`light.off`). The handler calls `light_send_cmd("OFF", 0)`, and `light_send_cmd`
clamps the number whatever the state: in every state the call writes `BT,Light,OFF,1\r\n`,
which is not the tabulated `BT,Light,OFF,0\r\n`, and returns `true`. -/
theorem light_off_writes_clamped_1 (args : PropertyList) (during : List ReadResult)
    (s : Bridge) :
    carInstance.call "light.off" args during s
      = some (s.sent (cstr "BT,Light,OFF,1\r\n"), ReturnValue.bool true) ∧
    carInstance.emitted "light.off" [] [] (Bridge.init []) ≠ some (cstr "BT,Light,OFF,0\r\n") :=
  ⟨rfl, by decide⟩

/-- C5 (`fan.off`, `lock.unlock`, `lock.lock`). In every state the three handlers write
exactly `BT,Fan,OFF,0\r\n`, `BT,Lock,ON,1\r\n` and `BT,Lock,OFF,0\r\n`, change nothing else,
and return `true`. -/
theorem fan_lock_tools_write_tabulated_frames (args : PropertyList)
    (during : List ReadResult) (s : Bridge) :
    carInstance.call "fan.off" args during s
      = some (s.sent (cstr "BT,Fan,OFF,0\r\n"), ReturnValue.bool true) ∧
    carInstance.call "lock.unlock" args during s
      = some (s.sent (cstr "BT,Lock,ON,1\r\n"), ReturnValue.bool true) ∧
    carInstance.call "lock.lock" args during s
      = some (s.sent (cstr "BT,Lock,OFF,0\r\n"), ReturnValue.bool true) :=
  ⟨rfl, rfl, rfl⟩

/-! ## The receive task -/

/-- One pass of the receive loop writes nothing to the UART. -/
theorem uart1_receive_iteration_uart_tx (rx : ReadResult) (s : Bridge) :
    (uart1_receive_iteration rx s).uart_tx = s.uart_tx := by
  simp only [uart1_receive_iteration]
  split_ifs <;> rfl

/-- The receive task writes nothing to the UART. -/
theorem uart1_receive_task_uart_tx (rxs : List ReadResult) (s : Bridge) :
    (uart1_receive_task rxs s).uart_tx = s.uart_tx := by
  induction rxs generalizing s with
  | nil => rfl
  | cons rx rest ih =>
    show (uart1_receive_task rest (uart1_receive_iteration rx s)).uart_tx = _
    rw [ih, uart1_receive_iteration_uart_tx]

/-- One pass of the receive loop stores what the specified decoder yields for the read, and
keeps the cache when the decoder yields nothing. -/
theorem uart1_receive_iteration_battery (rx : ReadResult) (s : Bridge) :
    (uart1_receive_iteration rx s).g_battery_level
      = (telemetry_decode rx).getD s.g_battery_level := by
  cases rx with
  | error => simp [uart1_receive_iteration, uart_read_bytes, telemetry_decode]
  | bytes bs =>
    rcases bs with _ | ⟨b0, _ | ⟨b1, _ | ⟨b2, _ | ⟨b3, _ | ⟨b4, rest⟩⟩⟩⟩⟩
    · simp [uart1_receive_iteration, uart_read_bytes, telemetry_decode]
    · simp [uart1_receive_iteration, uart_read_bytes, telemetry_decode]
    · simp [uart1_receive_iteration, uart_read_bytes, telemetry_decode]
    · simp [uart1_receive_iteration, uart_read_bytes, telemetry_decode]
    · simp only [uart1_receive_iteration, uart_read_bytes, telemetry_decode]
      by_cases h : b0 = 0xAA ∧ b1 = 0xBB ∧ b3 = 0xCC
      · simp [h]
      · simp [h]
    · simp only [uart1_receive_iteration, uart_read_bytes, telemetry_decode]
      split_ifs with h
      · simp only [List.length_cons, Int.ofNat_eq_coe] at h
        omega
      · rfl

/-- After the reads `rxs` the cache holds what the decoder yields for the last accepted
read, and its earlier value when none is accepted. -/
theorem uart1_receive_task_battery (rxs : List ReadResult) (s : Bridge) :
    (uart1_receive_task rxs s).g_battery_level
      = ((rxs.filterMap telemetry_decode).getLast?).getD s.g_battery_level := by
  induction rxs generalizing s with
  | nil => rfl
  | cons rx rest ih =>
    show (uart1_receive_task rest (uart1_receive_iteration rx s)).g_battery_level = _
    rw [ih, uart1_receive_iteration_battery]
    cases hrx : telemetry_decode rx with
    | none => simp [List.filterMap_cons, hrx]
    | some v =>
      simp only [List.filterMap_cons, hrx, Option.getD_some]
      cases hl : List.filterMap telemetry_decode rest with
      | nil => simp
      | cons a l =>
        rw [List.getLast?_eq_getLast (a :: l) (List.cons_ne_nil a l)]
        rfl

/-! ## Action tools and opcodes -/

/-- The bytes appended by a write are recovered by dropping the earlier stream. -/
theorem sent_drop (s : Bridge) (frame : List Nat) :
    (s.sent frame).uart_tx.drop s.uart_tx.length = frame := by
  simp [Bridge.sent]

/-- Every single-byte tool writes exactly its listed opcode, whatever the arguments, the
reads during the call and the state. -/
theorem emitted_registered_opcode (p : String × Nat) (hp : p ∈ registered_opcodes)
    (args : PropertyList) (during : List ReadResult) (s : Bridge) :
    carInstance.emitted p.1 args during s = some [p.2] := by
  simp only [registered_opcodes, List.mem_cons, List.mem_singleton, List.not_mem_nil,
    or_false] at hp
  have hb : carInstance.emitted "self.mcpcar.get_battery_level" args during s
      = some [0x47] := by
    show some ((uart1_receive_task during (s.sent [0x47])).uart_tx.drop s.uart_tx.length) = _
    rw [uart1_receive_task_uart_tx, sent_drop]
  have ha : ∀ (n : String) (op : Nat),
      carInstance.call n args during s = some (s.sent [op], ReturnValue.bool true) →
      carInstance.emitted n args during s = some [op] := by
    intro n op h
    simp only [McpServer.emitted, h, Option.map_some', sent_drop]
  rcases hp with h | h | h | h | h | h | h | h | h | h | h | h | h | h | h | h | h | h | h <;>
    subst h <;> first | exact hb | exact ha _ _ rfl

/-- No two entries of the registered list share an opcode. -/
theorem registered_opcodes_injective :
    ∀ p ∈ registered_opcodes, ∀ q ∈ registered_opcodes, p.2 = q.2 → p.1 = q.1 := by
  decide

/-- The names the constructor registers are those of the registered list, in order. -/
theorem single_byte_tool_names_eq :
    single_byte_tool_names = registered_opcodes.map (fun p => p.1) := by
  decide

/-- C6, as stated, fails. The rows `identify` (0x44) and `query_battery` (0x47) belong to
the table of §4.2, yet no tool is registered as `self.mcpcar.identify`, as `identify`, or as
`self.mcpcar.query_battery`; and the tool that writes 0x47, `self.mcpcar.get_battery_level`,
returns the integer 100 from the start-up state, not `true`. -/
theorem opcode_table_rows_not_registered :
    ("identify", 0x44) ∈ spec_opcode_table ∧
    (carInstance.find_tool ("self.mcpcar." ++ "identify")).isNone = true ∧
    (carInstance.find_tool "identify").isNone = true ∧
    ("query_battery", 0x47) ∈ spec_opcode_table ∧
    (carInstance.find_tool ("self.mcpcar." ++ "query_battery")).isNone = true ∧
    carInstance.call "self.mcpcar.get_battery_level" [] [] (Bridge.init [])
      = some ((Bridge.init []).sent [0x47], ReturnValue.int 100) := by
  refine ⟨by decide, by decide, by decide, by decide, by decide, by decide⟩

/-- C6, amended. After the appliance tools the constructor registers exactly these 19
tools, in this order, all with an empty schema: for each of the first 15 rows of the table
(`relax` to `greet`) the tool `self.mcpcar.<name>`, whose handler writes the single opcode
byte of the row and returns `true`; then, with handlers of the same shape, the opcodes
0x44, 0x45, 0x46 under the names `self.mcpcar.Identify who I am`,
`self.mcpcar.Enter the master's command`, `self.mcpcar.Enter a command`; then
`self.mcpcar.get_battery_level`, whose handler writes 0x47 and returns the cached integer.
No two registered tools share a name. -/
theorem action_tools_registered (args : PropertyList) (during : List ReadResult)
    (s : Bridge) :
    ((McpCar []).drop (register_device_tools []).length).map
        (fun t => (t.name, t.properties, t.callback args during s))
      = (spec_opcode_table.take 15).map
          (fun row => ("self.mcpcar." ++ row.1, [], some (s.sent [row.2], ReturnValue.bool true)))
        ++ [("self.mcpcar.Identify who I am", [], some (s.sent [0x44], ReturnValue.bool true)),
            ("self.mcpcar.Enter the master's command", [],
              some (s.sent [0x45], ReturnValue.bool true)),
            ("self.mcpcar.Enter a command", [], some (s.sent [0x46], ReturnValue.bool true)),
            ("self.mcpcar.get_battery_level", [],
              some (uart1_receive_task during (s.sent [0x47]),
                ReturnValue.int (uart1_receive_task during (s.sent [0x47])).g_battery_level))] ∧
    (carInstance.map (fun t => t.name)).Nodup := by
  refine ⟨rfl, by decide⟩

/-- C7 (opcode injectivity). The constructor registers 19 single-byte tools, the 18 action
tools and the battery tool; any two of them with different names write, in any states and
with any arguments, exactly one byte each, and the two bytes differ. -/
theorem opcodes_pairwise_distinct (n1 n2 : String) (a1 a2 : PropertyList)
    (d1 d2 : List ReadResult) (s1 s2 : Bridge)
    (h1 : n1 ∈ single_byte_tool_names) (h2 : n2 ∈ single_byte_tool_names) (hne : n1 ≠ n2) :
    single_byte_tool_names.length = 19 ∧
    ∃ op1 op2 : Nat, carInstance.emitted n1 a1 d1 s1 = some [op1] ∧
      carInstance.emitted n2 a2 d2 s2 = some [op2] ∧ op1 ≠ op2 := by
  refine ⟨by decide, ?_⟩
  rw [single_byte_tool_names_eq, List.mem_map] at h1 h2
  obtain ⟨p, hp, rfl⟩ := h1
  obtain ⟨q, hq, rfl⟩ := h2
  exact ⟨p.2, q.2, emitted_registered_opcode p hp a1 d1 s1,
    emitted_registered_opcode q hq a2 d2 s2,
    fun h => hne (registered_opcodes_injective p hp q hq h)⟩

/-- Instance of C7: `self.mcpcar.forward` and `self.mcpcar.get_battery_level`, called from
the start-up state, write one byte each and the bytes differ. -/
theorem opcodes_pairwise_distinct_witness :
    ∃ op1 op2 : Nat,
      carInstance.emitted "self.mcpcar.forward" [] [] (Bridge.init []) = some [op1] ∧
      carInstance.emitted "self.mcpcar.get_battery_level" [] [] (Bridge.init []) = some [op2] ∧
      op1 ≠ op2 :=
  (opcodes_pairwise_distinct "self.mcpcar.forward" "self.mcpcar.get_battery_level" [] [] [] []
    (Bridge.init []) (Bridge.init []) (by decide) (by decide) (by decide)).2

/-! ## Telemetry cache -/

/-- C8 (decoder acceptance and cache update). For every byte `x` in `[0,255]`, one pass of
the receive loop that reads exactly `0xAA 0xBB x 0xCC` sets the cache to `clamp(x, 0, 100)`,
which is `min(x, 100)`; `GetBatteryLevel` then returns that value, and so does the battery
tool when no read happens during its call. -/
theorem decoder_accepts_frame (x : Nat) (hx : x ≤ 255) (s : Bridge) :
    (uart1_receive_iteration (ReadResult.bytes [0xAA, 0xBB, x, 0xCC]) s).g_battery_level
      = clamp (Int.ofNat x) 0 100 ∧
    clamp (Int.ofNat x) 0 100 = Int.ofNat (min x 100) ∧
    GetBatteryLevel (uart1_receive_iteration (ReadResult.bytes [0xAA, 0xBB, x, 0xCC]) s)
      = Int.ofNat (min x 100) ∧
    (carInstance.call "self.mcpcar.get_battery_level" [] []
        (uart1_receive_iteration (ReadResult.bytes [0xAA, 0xBB, x, 0xCC]) s)).map Prod.snd
      = some (ReturnValue.int (Int.ofNat (min x 100))) := by
  have h1 : (uart1_receive_iteration (ReadResult.bytes [0xAA, 0xBB, x, 0xCC]) s).g_battery_level
      = clamp (Int.ofNat x) 0 100 := by
    simp [uart1_receive_iteration, uart_read_bytes]
  have h2 : clamp (Int.ofNat x) 0 100 = Int.ofNat (min x 100) := by
    simp only [clamp, Int.ofNat_eq_coe]
    split_ifs <;> omega
  refine ⟨h1, h2, ?_, ?_⟩
  · rw [← h2, ← h1]; rfl
  · rw [← h2, ← h1]; rfl

/-- Scenarios S4 and S5 as instances of C8: after `0xAA 0xBB 0x4B 0xCC` the level is 75,
after `0xAA 0xBB 0xFF 0xCC` it is 100. -/
theorem decoder_accepts_frame_witness :
    GetBatteryLevel (uart1_receive_iteration (ReadResult.bytes [0xAA, 0xBB, 0x4B, 0xCC])
      (Bridge.init [0, 0, 0, 0])) = 75 ∧
    GetBatteryLevel (uart1_receive_iteration (ReadResult.bytes [0xAA, 0xBB, 0xFF, 0xCC])
      (Bridge.init [0, 0, 0, 0])) = 100 :=
  ⟨(decoder_accepts_frame 0x4B (by decide) (Bridge.init [0, 0, 0, 0])).2.2.1,
   (decoder_accepts_frame 0xFF (by decide) (Bridge.init [0, 0, 0, 0])).2.2.1⟩

/-- C9 (rejected reads). When the read fails, or returns a number of bytes other than 4, or
returns 4 bytes with `b[0] ≠ 0xAA` or `b[1] ≠ 0xBB` or `b[3] ≠ 0xCC`, one pass of the receive
loop leaves the cache as it was, whatever the buffer held before: `GetBatteryLevel` and the
battery tool keep returning the prior value. -/
theorem rejected_read_keeps_cache (rx : ReadResult) (s : Bridge)
    (h : rx = ReadResult.error ∨ (∃ bs, rx = ReadResult.bytes bs ∧ bs.length ≠ 4) ∨
      (∃ b0 b1 b2 b3, rx = ReadResult.bytes [b0, b1, b2, b3] ∧
        (b0 ≠ 0xAA ∨ b1 ≠ 0xBB ∨ b3 ≠ 0xCC))) :
    (uart1_receive_iteration rx s).g_battery_level = s.g_battery_level ∧
    GetBatteryLevel (uart1_receive_iteration rx s) = GetBatteryLevel s ∧
    (carInstance.call "self.mcpcar.get_battery_level" [] []
        (uart1_receive_iteration rx s)).map Prod.snd
      = some (ReturnValue.int (GetBatteryLevel s)) := by
  have key : (uart1_receive_iteration rx s).g_battery_level = s.g_battery_level := by
    rw [uart1_receive_iteration_battery]
    rcases h with h | ⟨bs, h, hlen⟩ | ⟨b0, b1, b2, b3, h, hb⟩
    · subst h; rfl
    · subst h
      rcases bs with _ | ⟨b0, _ | ⟨b1, _ | ⟨b2, _ | ⟨b3, _ | ⟨b4, rest⟩⟩⟩⟩⟩ <;>
        first | rfl | exact absurd rfl hlen
    · subst h
      have hn : ¬ (b0 = 0xAA ∧ b1 = 0xBB ∧ b3 = 0xCC) := by
        rintro ⟨h0, h1, h3⟩
        rcases hb with hb | hb | hb
        · exact hb h0
        · exact hb h1
        · exact hb h3
      simp only [telemetry_decode, if_neg hn, Option.getD_none]
  refine ⟨key, key, ?_⟩
  show some (ReturnValue.int (uart1_receive_iteration rx s).g_battery_level) = _
  rw [key]; rfl

/-- Scenario S6 as an instance of C9: with the cache at 75 and the buffer still holding an
earlier valid frame, the read `0x00 0xBB 0x50 0xCC` leaves the level at 75. -/
theorem rejected_read_keeps_cache_witness :
    GetBatteryLevel (uart1_receive_iteration (ReadResult.bytes [0x00, 0xBB, 0x50, 0xCC])
      { uart_tx := [], g_battery_level := 75, data := [0xAA, 0xBB, 0x4B, 0xCC] }) = 75 :=
  (rejected_read_keeps_cache (ReadResult.bytes [0x00, 0xBB, 0x50, 0xCC])
    { uart_tx := [], g_battery_level := 75, data := [0xAA, 0xBB, 0x4B, 0xCC] }
    (Or.inr (Or.inr ⟨0x00, 0xBB, 0x50, 0xCC, rfl, Or.inl (by decide)⟩))).2.1

/-- The last-known value of a sequence without valid frame is the initial 100. -/
theorem last_known_value_of_no_valid (rxs : List ReadResult)
    (h : ∀ rx ∈ rxs, telemetry_decode rx = none) : last_known_value rxs = 100 := by
  have hnil : rxs.filterMap telemetry_decode = [] := by
    induction rxs with
    | nil => rfl
    | cons rx rest ih =>
      rw [List.filterMap_cons, h rx (List.mem_cons_self rx rest)]
      exact ih (fun r hr => h r (List.mem_cons_of_mem rx hr))
  simp [last_known_value, hnil]

/-- The last-known value of a sequence whose last valid frame is `0xAA 0xBB x 0xCC` (only
rejected reads follow it) is `clamp(x, 0, 100)`. -/
theorem last_known_value_of_last_valid (pre post : List ReadResult) (x : Nat)
    (h : ∀ rx ∈ post, telemetry_decode rx = none) :
    last_known_value (pre ++ ReadResult.bytes [0xAA, 0xBB, x, 0xCC] :: post)
      = clamp (Int.ofNat x) 0 100 := by
  have hnil : post.filterMap telemetry_decode = [] := by
    induction post with
    | nil => rfl
    | cons rx rest ih =>
      rw [List.filterMap_cons, h rx (List.mem_cons_self rx rest)]
      exact ih (fun r hr => h r (List.mem_cons_of_mem rx hr))
  have hx : telemetry_decode (ReadResult.bytes [0xAA, 0xBB, x, 0xCC])
      = some (clamp (Int.ofNat x) 0 100) := by
    simp [telemetry_decode]
  simp [last_known_value, List.filterMap_append, List.filterMap_cons, hx, hnil]

/-- The last-known value on three sample sequences: a valid frame (75) followed by a
rejected one, two valid frames (75, then 255 clamped to 100) followed by a failed read, and a
sequence of short or malformed reads only. -/
theorem last_known_value_samples :
    last_known_value [ReadResult.bytes [0xAA, 0xBB, 0x4B, 0xCC],
      ReadResult.bytes [0x00, 0xBB, 0x50, 0xCC]] = 75 ∧
    last_known_value [ReadResult.bytes [0xAA, 0xBB, 0x4B, 0xCC],
      ReadResult.bytes [0xAA, 0xBB, 0xFF, 0xCC], ReadResult.error] = 100 ∧
    last_known_value [ReadResult.bytes [0xAA, 0xBB, 0x10], ReadResult.bytes [],
      ReadResult.bytes [0xAA, 0xBB, 0x10, 0xCD]] = 100 := by
  decide

/-- C10 (last-known value). From the start-up state, for every finite sequence of reads,
`GetBatteryLevel` returns the clamped payload of the last valid frame of the sequence, and
100 when the sequence holds none; the battery tool, called after the reads `before` while
the reads `during` happen in its delay, returns that value for `before ++ during`. -/
theorem last_known_value_semantics (d : List Nat) (before during : List ReadResult)
    (args : PropertyList) :
    GetBatteryLevel (uart1_receive_task before (Bridge.init d)) = last_known_value before ∧
    (carInstance.call "self.mcpcar.get_battery_level" args during
        (uart1_receive_task before (Bridge.init d))).map Prod.snd
      = some (ReturnValue.int (last_known_value (before ++ during))) := by
  refine ⟨uart1_receive_task_battery before (Bridge.init d), ?_⟩
  show some (ReturnValue.int (uart1_receive_task during
    ((uart1_receive_task before (Bridge.init d)).sent [0x47])).g_battery_level) = _
  rw [uart1_receive_task_battery]
  have hb : ((uart1_receive_task before (Bridge.init d)).sent [0x47]).g_battery_level
      = last_known_value before := uart1_receive_task_battery before (Bridge.init d)
  rw [hb]
  simp only [last_known_value, List.filterMap_append]
  cases hl : List.filterMap telemetry_decode during with
  | nil => simp
  | cons a l =>
    rw [List.getLast?_append, List.getLast?_eq_getLast (a :: l) (List.cons_ne_nil a l)]
    rfl

/-! ## Decimal rendering -/

/-- The character of a decimal digit `d` is the byte `48 + d`. -/
theorem digitChar_toNat (d : Nat) (h : d < 10) : (Nat.digitChar d).toNat = 48 + d := by
  interval_cases d <;> rfl

/-- The digit loop only puts digits in front of its accumulator. -/
theorem toDigitsCore_acc (fuel n : Nat) (ds : List Char) :
    Nat.toDigitsCore 10 fuel n ds = Nat.toDigitsCore 10 fuel n [] ++ ds := by
  induction fuel generalizing n ds with
  | zero => rfl
  | succ fuel ih =>
    simp only [Nat.toDigitsCore]
    split_ifs with h
    · rfl
    · rw [ih (n / 10) (Nat.digitChar (n % 10) :: ds), ih (n / 10) [Nat.digitChar (n % 10)]]
      simp

/-- Every byte of a rendered natural number is an ASCII digit. -/
theorem toDigits_bytes (m b : Nat) (hb : b ∈ (Nat.toDigits 10 m).map Char.toNat) :
    48 ≤ b ∧ b ≤ 57 := by
  have key : ∀ (fuel n : Nat) (ds : List Char),
      (∀ c ∈ ds, 48 ≤ c.toNat ∧ c.toNat ≤ 57) →
      ∀ c ∈ Nat.toDigitsCore 10 fuel n ds, 48 ≤ c.toNat ∧ c.toNat ≤ 57 := by
    intro fuel
    induction fuel with
    | zero => intro n ds hds c hc; exact hds c hc
    | succ fuel ih =>
      intro n ds hds c hc
      have hd : ∀ c ∈ Nat.digitChar (n % 10) :: ds, 48 ≤ c.toNat ∧ c.toNat ≤ 57 := by
        intro c hc
        rcases List.mem_cons.mp hc with h | h
        · have := digitChar_toNat (n % 10) (Nat.mod_lt n (by decide))
          subst h; omega
        · exact hds c h
      simp only [Nat.toDigitsCore] at hc
      split_ifs at hc with h
      · exact hd c hc
      · exact ih (n / 10) _ hd c hc
  obtain ⟨c, hc, rfl⟩ := List.mem_map.mp hb
  exact key (m + 1) m [] (fun c hc => absurd hc (List.not_mem_nil c)) c hc

/-- A natural number below `10 ^ 10` renders as 1 to 10 bytes. -/
theorem toDigits_length (m : Nat) (h : m < 10 ^ 10) :
    1 ≤ ((Nat.toDigits 10 m).map Char.toNat).length ∧
    ((Nat.toDigits 10 m).map Char.toNat).length ≤ 10 := by
  rw [List.length_map]
  refine ⟨?_, Nat.toDigitsCore_length 10 (by decide) (m + 1) m 10 h (by decide)⟩
  show 1 ≤ (Nat.toDigitsCore 10 (m + 1) m []).length
  simp only [Nat.toDigitsCore]
  split_ifs with h0
  · simp
  · rw [toDigitsCore_acc]; simp

/-- The rendered digits of a natural number denote that number. -/
theorem toDigits_value (m : Nat) :
    decimal_value ((Nat.toDigits 10 m).map Char.toNat) = m := by
  have key : ∀ (fuel n : Nat), n < fuel →
      decimal_value ((Nat.toDigitsCore 10 fuel n []).map Char.toNat) = n := by
    intro fuel
    induction fuel with
    | zero => intro n hn; omega
    | succ fuel ih =>
      intro n hn
      have hd := digitChar_toNat (n % 10) (Nat.mod_lt n (by decide))
      simp only [Nat.toDigitsCore]
      split_ifs with h
      · simp only [List.map_cons, List.map_nil, decimal_value, List.foldl_cons, List.foldl_nil, hd]
        omega
      · rw [toDigitsCore_acc, List.map_append]
        have hrec := ih (n / 10) (by omega)
        simp only [decimal_value] at hrec ⊢
        rw [List.foldl_append, hrec]
        simp only [List.map_cons, List.map_nil, List.foldl_cons, List.foldl_nil, hd]
        omega
  exact key (m + 1) m (Nat.lt_succ_self m)

/-- Reading back what `%d` wrote gives the integer that was formatted. -/
theorem read_d_fmt_d (n : Int) : read_d (fmt_d n) = n := by
  cases n with
  | ofNat m =>
    have hne : ((Nat.toDigits 10 m).map Char.toNat).head? ≠ some 45 := by
      intro h
      have hm := List.mem_of_mem_head? (Option.mem_def.mpr h)
      have := toDigits_bytes m 45 hm
      omega
    simp only [fmt_d, read_d, if_neg hne, toDigits_value]
  | negSucc m =>
    simp only [fmt_d, read_d, List.head?_cons, List.tail_cons, if_true, toDigits_value]
    rfl

/-- What `%d` writes starts with `-` exactly for the negative integers. -/
theorem fmt_d_head (n : Int) : (fmt_d n).head? = some 45 ↔ n < 0 := by
  cases n with
  | ofNat m =>
    have hne : ((Nat.toDigits 10 m).map Char.toNat).head? ≠ some 45 := by
      intro h
      have hm := List.mem_of_mem_head? (Option.mem_def.mpr h)
      have := toDigits_bytes m 45 hm
      omega
    have hnn : ¬ (Int.ofNat m < 0) := by
      have : (0 : Int) ≤ Int.ofNat m := Int.ofNat_nonneg m
      omega
    simp only [fmt_d]
    exact ⟨fun h => absurd h hne, fun h => absurd h hnn⟩
  | negSucc m =>
    simp only [fmt_d, List.head?_cons]
    exact ⟨fun _ => Int.negSucc_lt_zero m, fun _ => trivial⟩

/-- Every byte `%d` writes is `-` or an ASCII digit. -/
theorem fmt_d_bytes (n : Int) (b : Nat) (hb : b ∈ fmt_d n) : b = 45 ∨ (48 ≤ b ∧ b ≤ 57) := by
  cases n with
  | ofNat m => exact Or.inr (toDigits_bytes m b hb)
  | negSucc m =>
    rcases List.mem_cons.mp hb with h | h
    · exact Or.inl h
    · exact Or.inr (toDigits_bytes (m + 1) b h)

/-- A 32-bit `int` is written by `%d` as 1 to 11 bytes. -/
theorem fmt_d_length (n : Int) (hn : is_int32 n) :
    1 ≤ (fmt_d n).length ∧ (fmt_d n).length ≤ 11 := by
  obtain ⟨h1, h2⟩ := hn
  cases n with
  | ofNat m =>
    have hm : m < 10 ^ 10 := by
      have : (m : Int) ≤ 2147483647 := h2
      omega
    have := toDigits_length m hm
    simp only [fmt_d]
    omega
  | negSucc m =>
    have hm : m + 1 < 10 ^ 10 := by
      have : Int.negSucc m = -((m : Int) + 1) := rfl
      omega
    have := toDigits_length (m + 1) hm
    simp only [fmt_d, List.length_cons]
    omega

/-! ## Appliance frames -/

/-- Formatting bytes without NUL into the 32-byte buffer and sending `strlen` bytes of it
writes exactly those bytes when they number at most 31, and faults otherwise. -/
theorem sprintf_write (out : List Nat) (s : Bridge) (h0 : ∀ b ∈ out, b ≠ 0) :
    (match sprintf 32 out with
      | none => none
      | some cmd => some { s with uart_tx := uart_write_bytes s.uart_tx cmd (strlen cmd) })
      = if out.length ≤ 31 then some (s.sent out) else none := by
  have hlen : strlen (out ++ [0]) = out.length := by
    unfold strlen
    rw [List.takeWhile_append_of_pos (fun a ha => by simpa using h0 a ha)]
    simp
  by_cases h : out.length ≤ 31
  · have h' : out.length + 1 ≤ 32 := by omega
    simp only [sprintf, if_pos h', if_pos h, hlen, uart_write_bytes, List.take_left, Bridge.sent]
  · have h' : ¬ out.length + 1 ≤ 32 := by omega
    simp only [sprintf, if_neg h', if_neg h]

/-- An appliance frame holds no NUL byte. -/
theorem appliance_frame_ne_zero (device state : List Nat) (n : Int)
    (hdev : ∀ b ∈ device, b ≠ 0) :
    ∀ b ∈ appliance_frame device (fmt_s state) n, b ≠ 0 := by
  intro b hb
  simp only [appliance_frame, List.mem_append] at hb
  rcases hb with (((((hb | hb) | hb) | hb) | hb) | hb) | hb
  · revert b; decide
  · exact hdev b hb
  · revert b; decide
  · have := List.mem_takeWhile_imp hb
    simpa using this
  · revert b; decide
  · rcases fmt_d_bytes n b hb with h | h <;> omega
  · revert b; decide

/-- What `air_send_cmd` does for any state string and any integer. -/
theorem air_send_cmd_eq (state : List Nat) (temp : Int) (s : Bridge) :
    air_send_cmd state temp s
      = if (appliance_frame (cstr "Air") (fmt_s state)
            (if temp < 16 then 16 else if temp > 32 then 32 else temp)).length ≤ 31
        then some (s.sent (appliance_frame (cstr "Air") (fmt_s state)
            (if temp < 16 then 16 else if temp > 32 then 32 else temp)))
        else none := by
  have hf : ∀ c : Int, cstr "BT,Air," ++ fmt_s state ++ cstr "," ++ fmt_d c ++ cstr "\r\n"
      = appliance_frame (cstr "Air") (fmt_s state) c := by
    intro c
    have : cstr "BT,Air," = cstr "BT," ++ cstr "Air" ++ cstr "," := by decide
    rw [this]; simp only [appliance_frame, List.append_assoc]
  simp only [air_send_cmd, hf]
  exact sprintf_write _ s (appliance_frame_ne_zero _ _ _ (by decide))

/-- What `fan_send_cmd` does for any state string and any integer. -/
theorem fan_send_cmd_eq (state : List Nat) (gear : Int) (s : Bridge) :
    fan_send_cmd state gear s
      = if (appliance_frame (cstr "Fan") (fmt_s state) gear).length ≤ 31
        then some (s.sent (appliance_frame (cstr "Fan") (fmt_s state) gear))
        else none := by
  have hf : cstr "BT,Fan," ++ fmt_s state ++ cstr "," ++ fmt_d gear ++ cstr "\r\n"
      = appliance_frame (cstr "Fan") (fmt_s state) gear := by
    have : cstr "BT,Fan," = cstr "BT," ++ cstr "Fan" ++ cstr "," := by decide
    rw [this]; simp only [appliance_frame, List.append_assoc]
  simp only [fan_send_cmd, hf]
  exact sprintf_write _ s (appliance_frame_ne_zero _ _ _ (by decide))

/-- What `light_send_cmd` does for any state string and any integer. -/
theorem light_send_cmd_eq (state : List Nat) (gear : Int) (s : Bridge) :
    light_send_cmd state gear s
      = if (appliance_frame (cstr "Light") (fmt_s state)
            (if gear < 1 then 1 else if gear > 5 then 5 else gear)).length ≤ 31
        then some (s.sent (appliance_frame (cstr "Light") (fmt_s state)
            (if gear < 1 then 1 else if gear > 5 then 5 else gear)))
        else none := by
  have hf : ∀ c : Int, cstr "BT,Light," ++ fmt_s state ++ cstr "," ++ fmt_d c ++ cstr "\r\n"
      = appliance_frame (cstr "Light") (fmt_s state) c := by
    intro c
    have : cstr "BT,Light," = cstr "BT," ++ cstr "Light" ++ cstr "," := by decide
    rw [this]; simp only [appliance_frame, List.append_assoc]
  simp only [light_send_cmd, hf]
  exact sprintf_write _ s (appliance_frame_ne_zero _ _ _ (by decide))

/-- What `lock_send_cmd` does for any state string and any integer. -/
theorem lock_send_cmd_eq (state : List Nat) (gear : Int) (s : Bridge) :
    lock_send_cmd state gear s
      = if (appliance_frame (cstr "Lock") (fmt_s state) gear).length ≤ 31
        then some (s.sent (appliance_frame (cstr "Lock") (fmt_s state) gear))
        else none := by
  have hf : cstr "BT,Lock," ++ fmt_s state ++ cstr "," ++ fmt_d gear ++ cstr "\r\n"
      = appliance_frame (cstr "Lock") (fmt_s state) gear := by
    have : cstr "BT,Lock," = cstr "BT," ++ cstr "Lock" ++ cstr "," := by decide
    rw [this]; simp only [appliance_frame, List.append_assoc]
  simp only [lock_send_cmd, hf]
  exact sprintf_write _ s (appliance_frame_ne_zero _ _ _ (by decide))

/-- The `return true` tail applied to a conditional write. -/
theorem return_true_ite (c : Prop) [Decidable c] (s : Bridge) (F : List Nat) :
    return_true (if c then some (s.sent F) else none)
      = (if c then some F else none).map (fun f => (s.sent f, ReturnValue.bool true)) := by
  split_ifs <;> rfl

/-- Each appliance handler, for any arguments, either faults in every state or appends one
and the same frame in every state and returns `true`. -/
theorem appliance_tool_callback (t : McpTool) (ht : t ∈ register_device_tools [])
    (args : PropertyList) :
    ∃ o : Option (List Nat), ∀ (during : List ReadResult) (s : Bridge),
      t.callback args during s = o.map (fun f => (s.sent f, ReturnValue.bool true)) := by
  simp only [register_device_tools, McpServer.AddTool, List.nil_append, List.append_assoc,
    List.cons_append, List.mem_cons, List.mem_singleton, List.not_mem_nil, or_false] at ht
  rcases ht with h | h | h | h | h | h | h | h <;> subst h
  · exact ⟨_, fun _ s => by
      show return_true (air_send_cmd (cstr "OFF") 0 s) = _
      rw [air_send_cmd_eq, return_true_ite]⟩
  · cases hv : args.value_int "temperature" with
    | none => exact ⟨none, fun _ s => by
        show (match args.value_int "temperature" with
          | some v => return_true (air_send_cmd (cstr "ON") v s)
          | none => none) = _
        rw [hv]; rfl⟩
    | some v => exact ⟨_, fun _ s => by
        show (match args.value_int "temperature" with
          | some v => return_true (air_send_cmd (cstr "ON") v s)
          | none => none) = _
        rw [hv]
        show return_true (air_send_cmd (cstr "ON") v s) = _
        rw [air_send_cmd_eq, return_true_ite]⟩
  · exact ⟨_, fun _ s => by
      show return_true (fan_send_cmd (cstr "OFF") 0 s) = _
      rw [fan_send_cmd_eq, return_true_ite]⟩
  · cases hv : args.value_int "gear" with
    | none => exact ⟨none, fun _ s => by
        show (match args.value_int "gear" with
          | some v => return_true (fan_send_cmd (cstr "ON") v s)
          | none => none) = _
        rw [hv]; rfl⟩
    | some v => exact ⟨_, fun _ s => by
        show (match args.value_int "gear" with
          | some v => return_true (fan_send_cmd (cstr "ON") v s)
          | none => none) = _
        rw [hv]
        show return_true (fan_send_cmd (cstr "ON") v s) = _
        rw [fan_send_cmd_eq, return_true_ite]⟩
  · exact ⟨_, fun _ s => by
      show return_true (light_send_cmd (cstr "OFF") 0 s) = _
      rw [light_send_cmd_eq, return_true_ite]⟩
  · cases hv : args.value_int "gear" with
    | none => exact ⟨none, fun _ s => by
        show (match args.value_int "gear" with
          | some v => return_true (light_send_cmd (cstr "ON") v s)
          | none => none) = _
        rw [hv]; rfl⟩
    | some v => exact ⟨_, fun _ s => by
        show (match args.value_int "gear" with
          | some v => return_true (light_send_cmd (cstr "ON") v s)
          | none => none) = _
        rw [hv]
        show return_true (light_send_cmd (cstr "ON") v s) = _
        rw [light_send_cmd_eq, return_true_ite]⟩
  · exact ⟨_, fun _ s => by
      show return_true (lock_send_cmd (cstr "ON") 1 s) = _
      rw [lock_send_cmd_eq, return_true_ite]⟩
  · exact ⟨_, fun _ s => by
      show return_true (lock_send_cmd (cstr "OFF") 0 s) = _
      rw [lock_send_cmd_eq, return_true_ite]⟩

/-- An appliance frame with a 32-bit number is at most 26 bytes long. -/
theorem appliance_frame_length (device state : List Nat) (n : Int)
    (hdev : device ∈ appliance_devices) (hst : state ∈ appliance_states) (hn : is_int32 n) :
    (appliance_frame device state n).length ≤ 26 := by
  have hd : device.length ≤ 5 := by
    simp only [appliance_devices, List.mem_cons, List.mem_singleton, List.not_mem_nil,
      or_false] at hdev
    rcases hdev with h | h | h | h <;> subst h <;> decide
  have hs : state.length ≤ 3 := by
    simp only [appliance_states, List.mem_cons, List.mem_singleton, List.not_mem_nil,
      or_false] at hst
    rcases hst with h | h <;> subst h <;> decide
  have hl := (fmt_d_length n hn).2
  have h1 : (cstr "BT,").length = 3 := rfl
  have h2 : (cstr ",").length = 1 := rfl
  have h3 : (cstr "\r\n").length = 2 := rfl
  simp only [appliance_frame, List.length_append, h1, h2, h3]
  omega

/-- A well-formed head followed by `%d` output and CR LF is a well-formed frame. -/
theorem frame_shape (p d : List Nat)
    (hp : (∀ b ∈ p, b < 0x80 ∧ b ≠ 13 ∧ b ≠ 10) ∧ p.take 3 = cstr "BT," ∧ p.count 44 = 3 ∧
      3 ≤ p.length)
    (hd : ∀ b ∈ d, b = 45 ∨ (48 ≤ b ∧ b ≤ 57)) :
    frame_well_formed (p ++ d ++ cstr "\r\n") := by
  obtain ⟨hp1, hp2, hp3, hp4⟩ := hp
  have hcr : cstr "\r\n" = [13, 10] := rfl
  rw [hcr]
  refine ⟨?_, ?_, ?_, p ++ d, rfl, ?_⟩
  · intro b hb
    simp only [List.mem_append, List.mem_cons, List.mem_singleton, List.not_mem_nil,
      or_false] at hb
    rcases hb with (hb | hb) | hb | hb
    · exact (hp1 b hb).1
    · rcases hd b hb with h | h <;> omega
    · omega
    · omega
  · rw [List.append_assoc, List.take_append_of_le_length hp4, hp2]
  · have hd0 : d.count 44 = 0 := by
      rw [List.count_eq_zero]
      intro h
      rcases hd 44 h with h | h <;> omega
    simp only [List.count_append, hp3, hd0]
    rfl
  · intro b hb
    rcases List.mem_append.mp hb with hb | hb
    · exact (hp1 b hb).2
    · rcases hd b hb with h | h <;> omega

/-- Every appliance frame is well formed and starts with byte 0x42. -/
theorem appliance_frame_well_formed (device state : List Nat) (n : Int)
    (hdev : device ∈ appliance_devices) (hst : state ∈ appliance_states) :
    frame_well_formed (appliance_frame device state n) ∧
    (appliance_frame device state n).head? = some 0x42 := by
  have hw : frame_well_formed (appliance_frame device state n) := by
    simp only [appliance_devices, List.mem_cons, List.mem_singleton, List.not_mem_nil,
      or_false] at hdev
    simp only [appliance_states, List.mem_cons, List.mem_singleton, List.not_mem_nil,
      or_false] at hst
    rcases hdev with h | h | h | h <;> subst h <;> rcases hst with h | h <;> subst h <;>
      exact frame_shape _ _ (by decide) (fmt_d_bytes n)
  refine ⟨hw, ?_⟩
  have h3 := hw.2.1
  have h := congrArg List.head? h3
  rw [List.head?_take, if_neg (by decide)] at h
  rw [h]; rfl

/-- A clamped temperature is a 32-bit value. -/
theorem clamp_air_int32 (v : Int) :
    is_int32 (if v < 16 then 16 else if v > 32 then 32 else v) := by
  unfold is_int32
  split_ifs <;> omega

/-- A clamped gear is a 32-bit value. -/
theorem clamp_light_int32 (v : Int) :
    is_int32 (if v < 1 then 1 else if v > 5 then 5 else v) := by
  unfold is_int32
  split_ifs <;> omega

/-- Each appliance handler, called with a 32-bit value for its schema field, appends an
appliance frame and returns `true`. -/
theorem appliance_tool_frame (t : McpTool) (ht : t ∈ register_device_tools [])
    (args : PropertyList) (v : Int) (hv : is_int32 v)
    (hargs : ∀ p ∈ t.properties, args.value_int p.name = some v) :
    ∃ device state n, device ∈ appliance_devices ∧ state ∈ appliance_states ∧ is_int32 n ∧
      t.name ≠ "self.mcpcar.get_battery_level" ∧
      ∀ (during : List ReadResult) (s : Bridge),
        t.callback args during s
          = some (s.sent (appliance_frame device state n), ReturnValue.bool true) := by
  have hON : fmt_s (cstr "ON") = cstr "ON" := rfl
  have h26 : ∀ device state n, device ∈ appliance_devices → state ∈ appliance_states →
      is_int32 n → (appliance_frame device state n).length ≤ 31 :=
    fun device state n hd hs hn => le_trans (appliance_frame_length device state n hd hs hn)
      (by decide)
  simp only [register_device_tools, McpServer.AddTool, List.nil_append, List.append_assoc,
    List.cons_append, List.mem_cons, List.mem_singleton, List.not_mem_nil, or_false] at ht
  rcases ht with h | h | h | h | h | h | h | h <;> subst h
  · exact ⟨cstr "Air", cstr "OFF", 16, by decide, by decide, ⟨by decide, by decide⟩,
      by decide, fun _ _ => rfl⟩
  · have hval : args.value_int "temperature" = some v :=
      hargs (Property.mk4 "temperature" PropertyType.kPropertyTypeInteger 16 32)
        (List.mem_cons_self _ _)
    refine ⟨cstr "Air", cstr "ON", _, by decide, by decide, clamp_air_int32 v, by decide,
      fun _ s => ?_⟩
    show (match args.value_int "temperature" with
      | some v => return_true (air_send_cmd (cstr "ON") v s)
      | none => none) = _
    rw [hval]
    show return_true (air_send_cmd (cstr "ON") v s) = _
    rw [air_send_cmd_eq, hON,
      if_pos (h26 _ _ _ (by decide) (by decide) (clamp_air_int32 v))]
    rfl
  · exact ⟨cstr "Fan", cstr "OFF", 0, by decide, by decide, ⟨by decide, by decide⟩,
      by decide, fun _ _ => rfl⟩
  · have hval : args.value_int "gear" = some v :=
      hargs (Property.mk4 "gear" PropertyType.kPropertyTypeInteger 1 3)
        (List.mem_cons_self _ _)
    refine ⟨cstr "Fan", cstr "ON", v, by decide, by decide, hv, by decide, fun _ s => ?_⟩
    show (match args.value_int "gear" with
      | some v => return_true (fan_send_cmd (cstr "ON") v s)
      | none => none) = _
    rw [hval]
    show return_true (fan_send_cmd (cstr "ON") v s) = _
    rw [fan_send_cmd_eq, hON, if_pos (h26 _ _ _ (by decide) (by decide) hv)]
    rfl
  · exact ⟨cstr "Light", cstr "OFF", 1, by decide, by decide, ⟨by decide, by decide⟩,
      by decide, fun _ _ => rfl⟩
  · have hval : args.value_int "gear" = some v :=
      hargs (Property.mk4 "gear" PropertyType.kPropertyTypeInteger 1 5)
        (List.mem_cons_self _ _)
    refine ⟨cstr "Light", cstr "ON", _, by decide, by decide, clamp_light_int32 v, by decide,
      fun _ s => ?_⟩
    show (match args.value_int "gear" with
      | some v => return_true (light_send_cmd (cstr "ON") v s)
      | none => none) = _
    rw [hval]
    show return_true (light_send_cmd (cstr "ON") v s) = _
    rw [light_send_cmd_eq, hON,
      if_pos (h26 _ _ _ (by decide) (by decide) (clamp_light_int32 v))]
    rfl
  · exact ⟨cstr "Lock", cstr "ON", 1, by decide, by decide, ⟨by decide, by decide⟩,
      by decide, fun _ _ => rfl⟩
  · exact ⟨cstr "Lock", cstr "OFF", 0, by decide, by decide, ⟨by decide, by decide⟩,
      by decide, fun _ _ => rfl⟩

/-- The registered tools are the appliance tools, the action tools, whose handlers write one
byte and return `true`, and the battery tool. -/
theorem single_byte_tool_callback (t : McpTool) (ht : t ∈ carInstance) :
    t ∈ register_device_tools [] ∨
    (t.name ≠ "self.mcpcar.get_battery_level" ∧ ∃ op, ∀ (args : PropertyList)
      (during : List ReadResult) (s : Bridge),
      t.callback args during s = some (s.sent [op], ReturnValue.bool true)) ∨
    (t.name = "self.mcpcar.get_battery_level" ∧ ∀ (args : PropertyList)
      (during : List ReadResult) (s : Bridge),
      t.callback args during s = some (uart1_receive_task during (s.sent [0x47]),
        ReturnValue.int (GetBatteryLevel (uart1_receive_task during (s.sent [0x47]))))) := by
  simp only [carInstance, McpCar, McpServer.AddTool, List.append_assoc, List.cons_append,
    List.nil_append, List.mem_append, List.mem_cons, List.mem_singleton, List.not_mem_nil,
    or_false] at ht
  rcases ht with h | h | h | h | h | h | h | h | h | h | h | h | h | h | h | h | h | h | h | h
  · exact Or.inl h
  all_goals subst h
  all_goals first
    | exact Or.inr (Or.inl ⟨by decide, _, fun _ _ _ => rfl⟩)
    | exact Or.inr (Or.inr ⟨rfl, fun _ _ _ => rfl⟩)

/-! ## Cache invariant and battery handler -/

/-- Whatever the decoder yields lies in `[0,100]`. -/
theorem telemetry_decode_range (rx : ReadResult) (v : Int)
    (h : telemetry_decode rx = some v) : 0 ≤ v ∧ v ≤ 100 := by
  have hc : ∀ x : Int, 0 ≤ clamp x 0 100 ∧ clamp x 0 100 ≤ 100 := by
    intro x
    unfold clamp
    split_ifs <;> omega
  unfold telemetry_decode at h
  split at h
  · split_ifs at h
    cases h
    exact hc _
  · cases h

/-- One pass of the receive loop keeps the cache in range. -/
theorem uart1_receive_iteration_range (rx : ReadResult) (s : Bridge)
    (hs : cache_in_range s) : cache_in_range (uart1_receive_iteration rx s) := by
  unfold cache_in_range
  rw [uart1_receive_iteration_battery]
  cases h : telemetry_decode rx with
  | none => exact hs
  | some v => exact telemetry_decode_range rx v h

/-- The receive task keeps the cache in range. -/
theorem uart1_receive_task_range (rxs : List ReadResult) (s : Bridge)
    (hs : cache_in_range s) : cache_in_range (uart1_receive_task rxs s) := by
  induction rxs generalizing s with
  | nil => exact hs
  | cons rx rest ih => exact ih _ (uart1_receive_iteration_range rx s hs)

/-- Bytes written to the UART beforehand do not change what the receive task stores. -/
theorem uart1_receive_task_sent (rxs : List ReadResult) (s : Bridge) (f : List Nat) :
    (uart1_receive_task rxs (s.sent f)).g_battery_level
      = (uart1_receive_task rxs s).g_battery_level := by
  rw [uart1_receive_task_battery, uart1_receive_task_battery]
  rfl

/-- A completed handler leaves the cache as it was, except that the battery handler leaves
what the receive task stored during its delay. -/
theorem callback_cache (t : McpTool) (ht : t ∈ carInstance) (args : PropertyList)
    (during : List ReadResult) (s s' : Bridge) (r : ReturnValue)
    (h : t.callback args during s = some (s', r)) :
    s'.g_battery_level = s.g_battery_level ∨
    (t.name = "self.mcpcar.get_battery_level" ∧
      s'.g_battery_level = (uart1_receive_task during s).g_battery_level) := by
  rcases single_byte_tool_callback t ht with hd | ⟨_, op, hop⟩ | ⟨hname, hb⟩
  · obtain ⟨o, ho⟩ := appliance_tool_callback t hd args
    rw [ho during s] at h
    cases o with
    | none => cases h
    | some f =>
      simp only [Option.map_some', Option.some.injEq, Prod.mk.injEq] at h
      rw [← h.1]
      exact Or.inl rfl
  · rw [hop args during s] at h
    simp only [Option.some.injEq, Prod.mk.injEq] at h
    rw [← h.1]
    exact Or.inl rfl
  · rw [hb args during s] at h
    simp only [Option.some.injEq, Prod.mk.injEq] at h
    rw [← h.1]
    exact Or.inr ⟨hname, uart1_receive_task_sent during s [0x47]⟩

/-- The start-up cache value 100 is in range. -/
theorem init_cache_in_range (d : List Nat) : cache_in_range (Bridge.init d) := by
  show (0 : Int) ≤ 100 ∧ (100 : Int) ≤ 100
  decide

/-- The cache is in range in every reachable state. -/
theorem reachable_cache_in_range (s : Bridge) (hs : Reachable s) : cache_in_range s := by
  induction hs with
  | init d => exact init_cache_in_range d
  | read rx s _ ih => exact uart1_receive_iteration_range rx s ih
  | call t args during s s' r ht _ h ih =>
    rcases callback_cache t ht args during s s' r h with hc | ⟨_, hc⟩
    · unfold cache_in_range; rw [hc]; exact ih
    · unfold cache_in_range; rw [hc]; exact uart1_receive_task_range during s ih

/-- C11 (cache range invariant). The cache is in `[0,100]` in the start-up state and in every
reachable state `s`; it stays in range after a pass of the receive loop on any read outcome
(failed, any number of bytes, any byte values); no handler of a registered tool changes it
(a call during which the receive task does not run ends with the cache it started with);
and the battery tool, called in `s` with any reads during its delay, returns an integer in
`[0,100]`. -/
theorem cache_range_invariant (s : Bridge) (hs : Reachable s) :
    (∀ d : List Nat, cache_in_range (Bridge.init d)) ∧
    cache_in_range s ∧
    (∀ rx : ReadResult, cache_in_range (uart1_receive_iteration rx s)) ∧
    (∀ t ∈ carInstance, ∀ (args : PropertyList) (s' : Bridge) (r : ReturnValue),
      t.callback args [] s = some (s', r) → s'.g_battery_level = s.g_battery_level) ∧
    (∀ (args : PropertyList) (during : List ReadResult), ∃ (s' : Bridge) (v : Int),
      carInstance.call "self.mcpcar.get_battery_level" args during s
        = some (s', ReturnValue.int v) ∧ 0 ≤ v ∧ v ≤ 100) := by
  have hr := reachable_cache_in_range s hs
  refine ⟨init_cache_in_range, hr,
    fun rx => uart1_receive_iteration_range rx s hr, ?_, ?_⟩
  · intro t ht args s' r h
    rcases callback_cache t ht args [] s s' r h with hc | ⟨_, hc⟩
    · exact hc
    · exact hc
  · intro args during
    refine ⟨uart1_receive_task during (s.sent [0x47]),
      (uart1_receive_task during (s.sent [0x47])).g_battery_level, rfl, ?_⟩
    exact uart1_receive_task_range during (s.sent [0x47]) hr

/-- Instance of C11: after the frame `0xAA 0xBB 0x4B 0xCC`, the battery tool called while the
frame `0xAA 0xBB 0xFF 0xCC` and a short read arrive returns an integer in `[0,100]`. -/
theorem cache_range_invariant_witness :
    ∃ (s' : Bridge) (v : Int),
      carInstance.call "self.mcpcar.get_battery_level" []
          [ReadResult.bytes [0xAA, 0xBB, 0xFF, 0xCC], ReadResult.bytes [0xAA, 0xBB]]
          (uart1_receive_iteration (ReadResult.bytes [0xAA, 0xBB, 0x4B, 0xCC]) (Bridge.init []))
        = some (s', ReturnValue.int v) ∧ 0 ≤ v ∧ v ≤ 100 :=
  (cache_range_invariant
    (uart1_receive_iteration (ReadResult.bytes [0xAA, 0xBB, 0x4B, 0xCC]) (Bridge.init []))
    (Reachable.read _ _ (Reachable.init []))).2.2.2.2 []
    [ReadResult.bytes [0xAA, 0xBB, 0xFF, 0xCC], ReadResult.bytes [0xAA, 0xBB]]

/-- C12 (battery handler composition). In every state and for any reads during the delay, the
handler of `self.mcpcar.get_battery_level` ends in the state the receive task reaches from
`s` with byte 0x47 appended to the UART stream, and returns `GetBatteryLevel` of that state;
the stream gains exactly the one byte 0x47; the returned value is what the reads during the
delay leave in the cache, the same as if they had run on `s`; and with no read during the
delay the handler returns the cache of `s` and leaves it unchanged. -/
theorem battery_handler_composition (args : PropertyList) (during : List ReadResult)
    (s : Bridge) :
    carInstance.call "self.mcpcar.get_battery_level" args during s
      = some (uart1_receive_task during (s.sent [0x47]),
          ReturnValue.int (GetBatteryLevel (uart1_receive_task during (s.sent [0x47])))) ∧
    (uart1_receive_task during (s.sent [0x47])).uart_tx = s.uart_tx ++ [0x47] ∧
    carInstance.emitted "self.mcpcar.get_battery_level" args during s = some [0x47] ∧
    GetBatteryLevel (uart1_receive_task during (s.sent [0x47]))
      = GetBatteryLevel (uart1_receive_task during s) ∧
    carInstance.call "self.mcpcar.get_battery_level" args [] s
      = some (s.sent [0x47], ReturnValue.int (GetBatteryLevel s)) ∧
    (s.sent [0x47]).g_battery_level = s.g_battery_level := by
  refine ⟨rfl, ?_, ?_, uart1_receive_task_sent during s [0x47], rfl, rfl⟩
  · rw [uart1_receive_task_uart_tx]; rfl
  · exact emitted_registered_opcode ("self.mcpcar.get_battery_level", 0x47) (by decide)
      args during s

/-! ## Length, rendering and shape of the appliance frames -/

/-- The states `ON` and `OFF` hold no NUL, so `%s` copies them whole. -/
theorem fmt_s_state (state : List Nat) (hst : state ∈ appliance_states) :
    fmt_s state = state := by
  simp only [appliance_states, List.mem_cons, List.mem_singleton, List.not_mem_nil,
    or_false] at hst
  rcases hst with h | h <;> subst h <;> rfl

/-- For a state in {ON, OFF} and a 32-bit number, each encoder writes its appliance frame: the
number clamped for Air and Light, unchanged for Fan and Lock. -/
theorem encoders_frame (state : List Nat) (n : Int) (s : Bridge)
    (hst : state ∈ appliance_states) (hn : is_int32 n) :
    air_send_cmd state n s = some (s.sent (appliance_frame (cstr "Air") state
      (if n < 16 then 16 else if n > 32 then 32 else n))) ∧
    fan_send_cmd state n s = some (s.sent (appliance_frame (cstr "Fan") state n)) ∧
    light_send_cmd state n s = some (s.sent (appliance_frame (cstr "Light") state
      (if n < 1 then 1 else if n > 5 then 5 else n))) ∧
    lock_send_cmd state n s = some (s.sent (appliance_frame (cstr "Lock") state n)) := by
  have h31 : ∀ device m, device ∈ appliance_devices → is_int32 m →
      (appliance_frame device state m).length ≤ 31 :=
    fun device m hd hm => le_trans (appliance_frame_length device state m hd hst hm)
      (by decide)
  refine ⟨?_, ?_, ?_, ?_⟩
  · rw [air_send_cmd_eq, fmt_s_state state hst,
      if_pos (h31 _ _ (by decide) (clamp_air_int32 n))]
  · rw [fan_send_cmd_eq, fmt_s_state state hst, if_pos (h31 _ _ (by decide) hn)]
  · rw [light_send_cmd_eq, fmt_s_state state hst,
      if_pos (h31 _ _ (by decide) (clamp_light_int32 n))]
  · rw [lock_send_cmd_eq, fmt_s_state state hst, if_pos (h31 _ _ (by decide) hn)]

/-- The four format strings of the source produce the appliance frame of their device. -/
theorem source_format_eq (state : List Nat) (c : Int) :
    cstr "BT,Air," ++ state ++ cstr "," ++ fmt_d c ++ cstr "\r\n"
      = appliance_frame (cstr "Air") state c ∧
    cstr "BT,Fan," ++ state ++ cstr "," ++ fmt_d c ++ cstr "\r\n"
      = appliance_frame (cstr "Fan") state c ∧
    cstr "BT,Light," ++ state ++ cstr "," ++ fmt_d c ++ cstr "\r\n"
      = appliance_frame (cstr "Light") state c ∧
    cstr "BT,Lock," ++ state ++ cstr "," ++ fmt_d c ++ cstr "\r\n"
      = appliance_frame (cstr "Lock") state c :=
  ⟨rfl, rfl, rfl, rfl⟩

/-- At most 31 formatted bytes fit the 32-byte buffer with their NUL. -/
theorem sprintf_fits (out : List Nat) (h : out.length ≤ 31) :
    sprintf 32 out = some (out ++ [0]) := by
  have h' : out.length + 1 ≤ 32 := by omega
  simp only [sprintf, if_pos h']

/-- C13 (frame length bound). For each of the four encoders, a state in {ON, OFF} and any
32-bit signed `n`, the frame the encoder formats is at most 31 bytes long, `sprintf` into the
32-byte buffer stores it with its NUL terminator, and the encoder writes it to the UART. -/
theorem frame_length_bound (state : List Nat) (n : Int) (s : Bridge)
    (hst : state ∈ appliance_states) (hn : is_int32 n) :
    ((appliance_frame (cstr "Air") state
        (if n < 16 then 16 else if n > 32 then 32 else n)).length ≤ 31 ∧
      sprintf 32 (cstr "BT,Air," ++ fmt_s state ++ cstr "," ++
          fmt_d (if n < 16 then 16 else if n > 32 then 32 else n) ++ cstr "\r\n")
        = some (appliance_frame (cstr "Air") state
            (if n < 16 then 16 else if n > 32 then 32 else n) ++ [0]) ∧
      air_send_cmd state n s = some (s.sent (appliance_frame (cstr "Air") state
        (if n < 16 then 16 else if n > 32 then 32 else n)))) ∧
    ((appliance_frame (cstr "Fan") state n).length ≤ 31 ∧
      sprintf 32 (cstr "BT,Fan," ++ fmt_s state ++ cstr "," ++ fmt_d n ++ cstr "\r\n")
        = some (appliance_frame (cstr "Fan") state n ++ [0]) ∧
      fan_send_cmd state n s = some (s.sent (appliance_frame (cstr "Fan") state n))) ∧
    ((appliance_frame (cstr "Light") state
        (if n < 1 then 1 else if n > 5 then 5 else n)).length ≤ 31 ∧
      sprintf 32 (cstr "BT,Light," ++ fmt_s state ++ cstr "," ++
          fmt_d (if n < 1 then 1 else if n > 5 then 5 else n) ++ cstr "\r\n")
        = some (appliance_frame (cstr "Light") state
            (if n < 1 then 1 else if n > 5 then 5 else n) ++ [0]) ∧
      light_send_cmd state n s = some (s.sent (appliance_frame (cstr "Light") state
        (if n < 1 then 1 else if n > 5 then 5 else n)))) ∧
    ((appliance_frame (cstr "Lock") state n).length ≤ 31 ∧
      sprintf 32 (cstr "BT,Lock," ++ fmt_s state ++ cstr "," ++ fmt_d n ++ cstr "\r\n")
        = some (appliance_frame (cstr "Lock") state n ++ [0]) ∧
      lock_send_cmd state n s = some (s.sent (appliance_frame (cstr "Lock") state n))) := by
  have h31 : ∀ device m, device ∈ appliance_devices → is_int32 m →
      (appliance_frame device state m).length ≤ 31 :=
    fun device m hd hm => le_trans (appliance_frame_length device state m hd hst hm)
      (by decide)
  obtain ⟨ha, hf, hl, hk⟩ := encoders_frame state n s hst hn
  have hs := fmt_s_state state hst
  refine ⟨⟨h31 _ _ (by decide) (clamp_air_int32 n), ?_, ha⟩,
    ⟨h31 _ _ (by decide) hn, ?_, hf⟩,
    ⟨h31 _ _ (by decide) (clamp_light_int32 n), ?_, hl⟩,
    ⟨h31 _ _ (by decide) hn, ?_, hk⟩⟩
  · rw [hs, (source_format_eq state _).1]
    exact sprintf_fits _ (h31 (cstr "Air") _ (by decide) (clamp_air_int32 n))
  · rw [hs, (source_format_eq state _).2.1]
    exact sprintf_fits _ (h31 (cstr "Fan") _ (by decide) hn)
  · rw [hs, (source_format_eq state _).2.2.1]
    exact sprintf_fits _ (h31 (cstr "Light") _ (by decide) (clamp_light_int32 n))
  · rw [hs, (source_format_eq state _).2.2.2]
    exact sprintf_fits _ (h31 (cstr "Lock") _ (by decide) hn)

/-- Instance of C13 at `n = -2147483648`: `lock_send_cmd("OFF", n)` formats a frame of at
most 31 bytes and writes `BT,Lock,OFF,-2147483648\r\n`. -/
theorem frame_length_bound_witness :
    (appliance_frame (cstr "Lock") (cstr "OFF") (-2147483648)).length ≤ 31 ∧
    lock_send_cmd (cstr "OFF") (-2147483648) (Bridge.init [])
      = some ((Bridge.init []).sent (cstr "BT,Lock,OFF,-2147483648\r\n")) :=
  have h := frame_length_bound (cstr "OFF") (-2147483648) (Bridge.init []) (by decide)
    ⟨by decide, by decide⟩
  ⟨h.2.2.2.1, h.2.2.2.2.2⟩

/-- C17 (Fan and Lock are not clamped). For a state in {ON, OFF} and any 32-bit signed `n`,
`fan_send_cmd` writes exactly `BT,Fan,<state>,<n>\r\n` and `lock_send_cmd` writes exactly
`BT,Lock,<state>,<n>\r\n`, where `<n>` is `n` in base 10: the field reads back as `n`, it
starts with `-` exactly when `n` is negative, and all its other bytes are ASCII digits. -/
theorem fan_lock_not_clamped (state : List Nat) (n : Int) (s : Bridge)
    (hst : state = cstr "ON" ∨ state = cstr "OFF") (hn : is_int32 n) :
    fan_send_cmd state n s
      = some (s.sent (cstr "BT,Fan," ++ state ++ cstr "," ++ fmt_d n ++ cstr "\r\n")) ∧
    lock_send_cmd state n s
      = some (s.sent (cstr "BT,Lock," ++ state ++ cstr "," ++ fmt_d n ++ cstr "\r\n")) ∧
    read_d (fmt_d n) = n ∧
    ((fmt_d n).head? = some 45 ↔ n < 0) ∧
    (∀ b ∈ (fmt_d n).tail, 48 ≤ b ∧ b ≤ 57) := by
  have hst' : state ∈ appliance_states := by
    rcases hst with h | h <;> subst h <;> decide
  obtain ⟨_, hf, _, hk⟩ := encoders_frame state n s hst' hn
  refine ⟨hf, hk, read_d_fmt_d n, fmt_d_head n, ?_⟩
  intro b hb
  cases n with
  | ofNat m => exact toDigits_bytes m b (List.mem_of_mem_tail hb)
  | negSucc m => exact toDigits_bytes (m + 1) b hb

/-- Instance of C17: gear 7, outside the schema range, is sent as it is. -/
theorem fan_lock_not_clamped_witness :
    fan_send_cmd (cstr "ON") 7 (Bridge.init [])
      = some ((Bridge.init []).sent (cstr "BT,Fan,ON,7\r\n")) ∧
    lock_send_cmd (cstr "ON") 7 (Bridge.init [])
      = some ((Bridge.init []).sent (cstr "BT,Lock,ON,7\r\n")) :=
  have h := fan_lock_not_clamped (cstr "ON") 7 (Bridge.init []) (Or.inl rfl)
    ⟨by decide, by decide⟩
  ⟨h.1, h.2.1⟩

/-- C18 (frame well-formedness). For a state in {ON, OFF} and any 32-bit signed `n`, each of
the four encoders writes a frame that holds only ASCII bytes, starts with `BT,`, holds
exactly three commas, ends with CR LF and has no CR or LF before that. -/
theorem appliance_frames_well_formed (state : List Nat) (n : Int) (s : Bridge)
    (hst : state = cstr "ON" ∨ state = cstr "OFF") (hn : is_int32 n) :
    (∃ f, air_send_cmd state n s = some (s.sent f) ∧ frame_well_formed f) ∧
    (∃ f, fan_send_cmd state n s = some (s.sent f) ∧ frame_well_formed f) ∧
    (∃ f, light_send_cmd state n s = some (s.sent f) ∧ frame_well_formed f) ∧
    (∃ f, lock_send_cmd state n s = some (s.sent f) ∧ frame_well_formed f) := by
  have hst' : state ∈ appliance_states := by
    rcases hst with h | h <;> subst h <;> decide
  obtain ⟨ha, hf, hl, hk⟩ := encoders_frame state n s hst' hn
  exact ⟨⟨_, ha, (appliance_frame_well_formed _ state _ (by decide) hst').1⟩,
    ⟨_, hf, (appliance_frame_well_formed _ state _ (by decide) hst').1⟩,
    ⟨_, hl, (appliance_frame_well_formed _ state _ (by decide) hst').1⟩,
    ⟨_, hk, (appliance_frame_well_formed _ state _ (by decide) hst').1⟩⟩

/-- Instance of C18: the frame `fan_send_cmd("OFF", -2147483648)` writes is well formed. -/
theorem appliance_frames_well_formed_witness :
    ∃ f, fan_send_cmd (cstr "OFF") (-2147483648) (Bridge.init [])
      = some ((Bridge.init []).sent f) ∧ frame_well_formed f :=
  (appliance_frames_well_formed (cstr "OFF") (-2147483648) (Bridge.init []) (Or.inr rfl)
    ⟨by decide, by decide⟩).2.1

/-! ## Handler results, state independence and overlap of the wire formats -/

/-- C14 (handler results). Every registered handler, called in any state with any 32-bit
value bound to its schema field (any arguments at all for a tool without field), completes:
it returns `true`, except the handler of `self.mcpcar.get_battery_level`, which returns the
cached integer of the state it ends in. -/
theorem handlers_return_true (t : McpTool) (args : PropertyList) (v : Int)
    (during : List ReadResult) (s : Bridge)
    (ht : t ∈ carInstance) (hv : is_int32 v)
    (hargs : ∀ p ∈ t.properties, args.value_int p.name = some v) :
    ∃ s', t.callback args during s
      = some (s', if t.name = "self.mcpcar.get_battery_level"
          then ReturnValue.int (GetBatteryLevel s') else ReturnValue.bool true) := by
  rcases single_byte_tool_callback t ht with hd | ⟨hname, op, hop⟩ | ⟨hname, hb⟩
  · obtain ⟨device, state, n, _, _, _, hname, hcall⟩ :=
      appliance_tool_frame t hd args v hv hargs
    exact ⟨_, by rw [hcall during s, if_neg hname]⟩
  · exact ⟨_, by rw [hop args during s, if_neg hname]⟩
  · exact ⟨_, by rw [hb args during s, if_pos hname]⟩

/-- Instances of C14: the fourth registered tool, `fan.set_gear`, called with 7 returns
`true`; the last one, the battery tool, returns the cached integer. -/
theorem handlers_return_true_witness :
    (∃ s', (carInstance.get ⟨3, by decide⟩).callback
        (PropertyList.bind_value [Property.mk4 "gear" PropertyType.kPropertyTypeInteger 1 3] 7)
        [] (Bridge.init [])
      = some (s', ReturnValue.bool true)) ∧
    (∃ s', (carInstance.get ⟨26, by decide⟩).callback [] [] (Bridge.init [])
      = some (s', ReturnValue.int (GetBatteryLevel s'))) :=
  ⟨handlers_return_true (carInstance.get ⟨3, by decide⟩)
      (PropertyList.bind_value [Property.mk4 "gear" PropertyType.kPropertyTypeInteger 1 3] 7)
      7 [] (Bridge.init []) (List.get_mem carInstance 3 (by decide)) ⟨by decide, by decide⟩
      (by decide),
    handlers_return_true (carInstance.get ⟨26, by decide⟩) [] 0 [] (Bridge.init [])
      (List.get_mem carInstance 26 (by decide)) ⟨by decide, by decide⟩ (by decide)⟩

/-- The bytes appended by a handler that appends a frame are that frame. -/
theorem map_sent_drop (o : Option (List Nat)) (s : Bridge) :
    (o.map (fun f => (s.sent f, ReturnValue.bool true))).map
      (fun r => r.1.uart_tx.drop s.uart_tx.length) = o := by
  cases o with
  | none => rfl
  | some f => simp only [Option.map_some', sent_drop]

/-- Two writes in a row append the two frames in order. -/
theorem sent_sent (s : Bridge) (f g : List Nat) : (s.sent f).sent g = s.sent (f ++ g) := by
  simp only [Bridge.sent, List.append_assoc]

/-- C15 (idempotence of off-commands). The bytes an appliance tool appends to the UART are
the same in any two states and with any reads during the calls: they depend on the tool
and its arguments only. In particular `air.off` called twice in a row writes one frame `f`
and then `f` again, so that the stream gains `f ++ f`. -/
theorem appliance_output_state_independent (t : McpTool) (args : PropertyList)
    (d1 d2 : List ReadResult) (s1 s2 : Bridge) (ht : t ∈ register_device_tools []) :
    t.emitted args d1 s1 = t.emitted args d2 s2 ∧
    ∃ f, carInstance.call "air.off" args d1 s1 = some (s1.sent f, ReturnValue.bool true) ∧
      carInstance.call "air.off" args d2 (s1.sent f)
        = some (s1.sent (f ++ f), ReturnValue.bool true) := by
  constructor
  · obtain ⟨o, ho⟩ := appliance_tool_callback t ht args
    simp only [McpTool.emitted, ho, map_sent_drop]
  · refine ⟨cstr "BT,Air,OFF,16\r\n", rfl, ?_⟩
    rw [← sent_sent]
    rfl

/-- Instance of C15: `air.off` appends the same bytes from the start-up state and from a state
with another cache value and an earlier transmission. -/
theorem appliance_output_state_independent_witness :
    ((register_device_tools []).get ⟨0, by decide⟩).emitted [] [] (Bridge.init [])
      = ((register_device_tools []).get ⟨0, by decide⟩).emitted []
          [ReadResult.bytes [0xAA, 0xBB, 0x4B, 0xCC]]
          { uart_tx := [0x33], g_battery_level := 75, data := [] } :=
  (appliance_output_state_independent ((register_device_tools []).get ⟨0, by decide⟩) []
    [] [ReadResult.bytes [0xAA, 0xBB, 0x4B, 0xCC]] (Bridge.init [])
    { uart_tx := [0x33], g_battery_level := 75, data := [] }
    (List.get_mem (register_device_tools []) 0 (by decide))).1

/-- Each byte 0x30 to 0x39 is the opcode of an action tool. -/
theorem digit_is_action_opcode (d : Nat) (h1 : 0x30 ≤ d) (h2 : d ≤ 0x39) :
    ∃ p ∈ registered_opcodes, p.1 ≠ "self.mcpcar.get_battery_level" ∧ p.2 = d := by
  interval_cases d <;> decide

/-- C19 (the wire formats overlap). Every appliance tool, called in any state with a 32-bit
value bound to its schema field, writes a frame whose first byte is 0x42, the byte
`self.mcpcar.jump_backward` writes; so the frame holds a byte that an action tool writes as
its opcode. Moreover every ASCII digit 0x30 to 0x39 is the opcode of an action tool. -/
theorem wire_formats_overlap (t : McpTool) (args : PropertyList) (v : Int)
    (during : List ReadResult) (s : Bridge)
    (ht : t ∈ register_device_tools []) (hv : is_int32 v)
    (hargs : ∀ p ∈ t.properties, args.value_int p.name = some v) :
    ∃ f, t.callback args during s = some (s.sent f, ReturnValue.bool true) ∧
      f.head? = some 0x42 ∧
      carInstance.emitted "self.mcpcar.jump_backward" [] [] s = some [0x42] ∧
      (∃ b ∈ f, ∃ name ∈ single_byte_tool_names,
        name ≠ "self.mcpcar.get_battery_level" ∧
        carInstance.emitted name [] [] s = some [b]) ∧
      (∀ d, 0x30 ≤ d → d ≤ 0x39 → ∃ name ∈ single_byte_tool_names,
        name ≠ "self.mcpcar.get_battery_level" ∧
        carInstance.emitted name [] [] s = some [d]) := by
  obtain ⟨device, state, n, hdev, hst, _, _, hcall⟩ :=
    appliance_tool_frame t ht args v hv hargs
  have hhead := (appliance_frame_well_formed device state n hdev hst).2
  have hjump : carInstance.emitted "self.mcpcar.jump_backward" [] [] s = some [0x42] :=
    emitted_registered_opcode ("self.mcpcar.jump_backward", 0x42) (by decide) [] [] s
  refine ⟨appliance_frame device state n, hcall during s, hhead, hjump, ?_, ?_⟩
  · refine ⟨0x42, List.mem_of_mem_head? (Option.mem_def.mpr hhead),
      "self.mcpcar.jump_backward", by decide, by decide, hjump⟩
  · intro d h1 h2
    obtain ⟨p, hp, hne, hpd⟩ := digit_is_action_opcode d h1 h2
    refine ⟨p.1, ?_, hne, ?_⟩
    · rw [single_byte_tool_names_eq]
      exact List.mem_map_of_mem _ hp
    · rw [← hpd]
      exact emitted_registered_opcode p hp [] [] s

/-- Instance of C19: the frame `air.set_temp` writes for 22 starts with 0x42, the opcode of
`self.mcpcar.jump_backward`. -/
theorem wire_formats_overlap_witness :
    ∃ f, ((register_device_tools []).get ⟨1, by decide⟩).callback
        (PropertyList.bind_value
          [Property.mk4 "temperature" PropertyType.kPropertyTypeInteger 16 32] 22)
        [] (Bridge.init [])
      = some ((Bridge.init []).sent f, ReturnValue.bool true) ∧
      f.head? = some 0x42 ∧
      carInstance.emitted "self.mcpcar.jump_backward" [] [] (Bridge.init []) = some [0x42] :=
  have ⟨f, h1, h2, h3, _⟩ := wire_formats_overlap
    ((register_device_tools []).get ⟨1, by decide⟩)
    (PropertyList.bind_value
      [Property.mk4 "temperature" PropertyType.kPropertyTypeInteger 16 32] 22)
    22 [] (Bridge.init []) (List.get_mem (register_device_tools []) 1 (by decide))
    ⟨by decide, by decide⟩ (by decide)
  ⟨f, h1, h2, h3⟩
